import Mathlib

/-!
# tpm2-tools: `tpm2_duplicate` and `tpm2_encryptdecrypt`

A shallow embedding of the two tool drivers `tools/tpm2_duplicate.c` and
`tools/tpm2_encryptdecrypt.c`.

* C integers are `Nat` (the drivers do no arithmetic on them), the `int`
  result of `tpm2_tool_onrun` is `Int`.
* `char *` values are `Option String` (`none` is the `NULL` pointer).
* A `TPM2B_*` buffer is the list of its first `size` bytes.
* Every call that leaves the translation unit (the ESAPI, `files.h`,
  `tpm2_auth_util.h`, `tpm2_session.h`, the logger) is answered by a field of
  an environment record `Env`, and is recorded, with its arguments, as an
  `Event` of the trace the driver returns next to its result.  A theorem that
  holds for every `Env` holds for every behaviour of these collaborators.
-/

/-! ## Constants of the TSS2 headers -/

/-- The `TPM2_ALG_ERROR` algorithm identifier. -/
def TPM2_ALG_ERROR : Nat := 0x0000
/-- The `TPM2_ALG_AES` algorithm identifier. -/
def TPM2_ALG_AES : Nat := 0x0006
/-- The `TPM2_ALG_NULL` algorithm identifier. -/
def TPM2_ALG_NULL : Nat := 0x0010
/-- The `TPM2_ALG_CAMELLIA` algorithm identifier. -/
def TPM2_ALG_CAMELLIA : Nat := 0x0026
/-- The `TPM2_ALG_CFB` algorithm identifier. -/
def TPM2_ALG_CFB : Nat := 0x0043
/-- The `TPM2_ALG_CBC` algorithm identifier. -/
def TPM2_ALG_CBC : Nat := 0x0042
/-- The `TPM2_RC_SUCCESS` response code. -/
def TPM2_RC_SUCCESS : Nat := 0x000
/-- The `TPM2_RC_COMMAND_CODE` response code (`RC_VER1 + 0x043`). -/
def TPM2_RC_COMMAND_CODE : Nat := 0x143
/-- The `ESYS_TR_NONE` handle. -/
def ESYS_TR_NONE : Nat := 0xfff
/-- The `TPM2_RS_PW` password session handle. -/
def TPM2_RS_PW : Nat := 0x40000009
/-- Capacity of `TPM2B_IV.buffer`, that is `sizeof(iv.buffer)`. -/
def TPM2_MAX_SYM_BLOCK_SIZE : Nat := 16
/-- Capacity of `TPM2B_MAX_BUFFER.buffer`, that is `sizeof(ctx.data.buffer)`. -/
def TPM2_MAX_DIGEST_BUFFER : Nat := 1024

/-! ## Shared data -/

/-- The `TPMT_SYM_DEF_OBJECT` structure: algorithm, `keyBits.aes`, `mode.aes`. -/
structure TPMT_SYM_DEF_OBJECT where
  algorithm : Nat
  keyBits : Nat
  mode : Nat
  deriving DecidableEq, Repr

/-- The `auth` member of both tool contexts: the `TPMS_AUTH_COMMAND`
(its session handle and its `hmac` buffer) and the `tpm2_session *`. -/
structure tool_auth where
  sessionHandle : Nat
  hmac : List Nat
  session : Option Nat
  deriving DecidableEq, Repr

/-- The static initialiser `TPMS_AUTH_COMMAND_INIT(TPM2_RS_PW)` with a `NULL` session. -/
def tool_auth.init : tool_auth :=
  { sessionHandle := TPM2_RS_PW, hmac := [], session := none }

/-- One call out of the translation unit, with the arguments the driver passed. -/
inductive Event where
  | LOG_ERR (fmt : String) (args : List Nat)
  | LOG_WARN (fmt : String)
  | LOG_PERR (func : String) (rval : Nat)
  | tpm2_util_object_load (arg : Option String)
  | tpm2_auth_util_from_optarg (arg : Option String)
  | tpm2_auth_util_get_shandle (tr_handle : Nat) (auth : tool_auth)
  | tpm2_session_free (session : Option Nat)
  | tpm2_session_save (session : Option Nat)
  | files_load_bytes_from_path (path : Option String) (capacity : Nat)
  | files_load_bytes_from_buffer_or_file_or_stdin (path : Option String) (capacity : Nat)
  | files_get_file_size_path (path : Option String)
  | files_save_bytes_to_file (path : Option String) (bytes : List Nat)
  | files_save_encrypted_seed (seed : List Nat) (path : Option String)
  | files_save_private (priv : List Nat) (path : Option String)
  | Esys_Duplicate (object newParent shandle1 : Nat) (in_key : Option (List Nat))
      (sym_alg : TPMT_SYM_DEF_OBJECT) (want_out_key : Bool)
  | Esys_ReadPublic (tr_handle : Nat)
  | Esys_EncryptDecrypt2 (key shandle1 : Nat) (data : List Nat) (decrypt : Nat)
      (mode : Nat) (iv_in : List Nat)
  | Esys_EncryptDecrypt (key shandle1 : Nat) (decrypt : Nat) (mode : Nat)
      (iv_in : List Nat) (data : List Nat)
  deriving DecidableEq, Repr

/-- Whether the event is a call of the legacy variant `Esys_EncryptDecrypt`. -/
def Event.is_legacy : Event → Bool
  | .Esys_EncryptDecrypt _ _ _ _ _ _ => true
  | _ => false

/-- The key handle, the mode and the IV passed by a call of the encrypt/decrypt
operation, in either variant; `none` for every other event. -/
def Event.operation_args : Event → Option (Nat × Nat × List Nat)
  | .Esys_EncryptDecrypt2 key _ _ _ mode iv_in => some (key, mode, iv_in)
  | .Esys_EncryptDecrypt key _ _ mode iv_in _ => some (key, mode, iv_in)
  | _ => none

/-- Whether the event is a call of the encrypt/decrypt operation (either variant). -/
def Event.is_operation (e : Event) : Bool := e.operation_args.isSome

/-- Whether the event is a call of `tpm2_session_save`. -/
def Event.is_session_save : Event → Bool
  | .tpm2_session_save _ => true
  | _ => false

/-- Whether the event is a call of `tpm2_auth_util_get_shandle`. -/
def Event.is_get_shandle : Event → Bool
  | .tpm2_auth_util_get_shandle _ _ => true
  | _ => false

/-- Whether the event is a call of `Esys_Duplicate`. -/
def Event.is_duplicate : Event → Bool
  | .Esys_Duplicate _ _ _ _ _ _ => true
  | _ => false

/-- Whether the event is a write of an output file. -/
def Event.is_write : Event → Bool
  | .files_save_bytes_to_file _ _ => true
  | .files_save_encrypted_seed _ _ => true
  | .files_save_private _ _ => true
  | _ => false

/-- Whether the event is one of the calls made while a command is prepared:
the logger, the loaders of input files, the Object Loader, the authorization
parser and `Esys_ReadPublic`. -/
def Event.is_setup : Event → Bool
  | .LOG_ERR _ _ => true
  | .LOG_WARN _ => true
  | .LOG_PERR _ _ => true
  | .tpm2_util_object_load _ => true
  | .tpm2_auth_util_from_optarg _ => true
  | .files_load_bytes_from_path _ _ => true
  | .files_load_bytes_from_buffer_or_file_or_stdin _ _ => true
  | .files_get_file_size_path _ => true
  | .Esys_ReadPublic _ => true
  | _ => false

namespace Duplicate

/-- The bit-field `flags` of `tpm_duplicate_ctx`; each member is one bit. -/
structure tpm_duplicate_flags where
  c : Bool
  C : Bool
  g : Bool
  i : Bool
  o : Bool
  p : Bool
  r : Bool
  s : Bool
  deriving DecidableEq, Repr

/-- The `tpm_duplicate_ctx` structure; a `tpm2_loaded_object` is its `tr_handle`. -/
structure tpm_duplicate_ctx where
  auth : tool_auth
  duplicate_key_public_file : Option String
  duplicate_key_private_file : Option String
  key_type : Nat
  sym_key_in : Option String
  sym_key_out : Option String
  enc_seed_out : Option String
  new_parent_object_arg : Option String
  new_parent_object_context : Nat
  object_auth_str : Option String
  object_arg : Option String
  object_context : Nat
  flags : tpm_duplicate_flags
  deriving DecidableEq, Repr

/-- The static `ctx`: `key_type = TPM2_ALG_ERROR`, the password session, all else zero. -/
def ctx : tpm_duplicate_ctx :=
  { auth := tool_auth.init
    duplicate_key_public_file := none
    duplicate_key_private_file := none
    key_type := TPM2_ALG_ERROR
    sym_key_in := none
    sym_key_out := none
    enc_seed_out := none
    new_parent_object_arg := none
    new_parent_object_context := 0
    object_auth_str := none
    object_arg := none
    object_context := 0
    flags := { c := false, C := false, g := false, i := false, o := false, p := false,
               r := false, s := false } }

/-- The option callback.  `tpm2_alg_util_from_optarg` (with the flags
`symmetric | misc`) is a parameter.  Returns the `bool` result, the updated
context and the log. -/
def on_option (tpm2_alg_util_from_optarg : String → Nat) (ctx : tpm_duplicate_ctx)
    (key : Char) (value : String) : Bool × tpm_duplicate_ctx × List Event :=
  if key = 'p' then
    (true, { ctx with object_auth_str := some value, flags := { ctx.flags with p := true } }, [])
  else if key = 'g' then
    let key_type := tpm2_alg_util_from_optarg value
    if key_type ≠ TPM2_ALG_ERROR then
      (true, { ctx with key_type := key_type, flags := { ctx.flags with g := true } }, [])
    else
      (true, { ctx with key_type := key_type }, [])
  else if key = 'i' then
    (true, { ctx with sym_key_in := some value, flags := { ctx.flags with i := true } }, [])
  else if key = 'o' then
    (true, { ctx with sym_key_out := some value, flags := { ctx.flags with o := true } }, [])
  else if key = 'C' then
    (true, { ctx with new_parent_object_arg := some value,
                      flags := { ctx.flags with C := true } }, [])
  else if key = 'c' then
    (true, { ctx with object_arg := some value, flags := { ctx.flags with c := true } }, [])
  else if key = 'r' then
    (true, { ctx with duplicate_key_private_file := some value,
                      flags := { ctx.flags with r := true } }, [])
  else if key = 's' then
    (true, { ctx with enc_seed_out := some value, flags := { ctx.flags with s := true } }, [])
  else
    (false, ctx, [Event.LOG_ERR "Invalid option" []])

/-- One assignment `if (cond) { LOG_ERR(msg); result = false; }` of `check_options`. -/
def check (cond : Bool) (msg : String) (acc : Bool × List Event) : Bool × List Event :=
  if cond then (false, acc.2 ++ [Event.LOG_ERR msg []]) else acc

/-- The function `check_options`: all checks run, every failing one logs and
clears `result`. -/
def check_options (ctx : tpm_duplicate_ctx) : Bool × List Event :=
  let r0 : Bool × List Event := (true, [])
  let r1 := check (ctx.flags.g == false)
    "Expected key type to be specified via \"-G\", missing option." r0
  let r2 :=
    if ctx.key_type ≠ TPM2_ALG_NULL then
      let a := check (ctx.flags.i == false && ctx.flags.o == false)
        "Expected in or out encryption key file \"-k/K\", missing option." r1
      check (ctx.flags.i && ctx.flags.o)
        "Expected either in or out encryption key file \"-k/K\", conflicting options." a
    else
      check (ctx.flags.i || ctx.flags.o)
        "Expected neither in nor out encryption key file \"-k/K\", conflicting options." r1
  let r3 := check (ctx.flags.C == false)
    "Expected new parent object to be specified via \"-C\", missing option." r2
  let r4 := check (ctx.flags.c == false)
    "Expected object to be specified via \"-c\", missing option." r3
  let r5 := check (ctx.flags.s == false)
    "Expected encrypted seed out filename to be specified via \"-S\", missing option." r4
  check (ctx.flags.r == false)
    "Expected private key out filename to be specified via \"-r\", missing option." r5

/-- The answer of `Esys_Duplicate`: the status and the three output pointers.
`out_key` is what the TPM stores through the `out_key` argument when the
driver passes a non-`NULL` one (`none`: it leaves the pointer `NULL`). -/
structure Esys_Duplicate_response where
  rval : Nat
  out_key : Option (List Nat)
  duplicate : List Nat
  encrypted_seed : List Nat
  deriving DecidableEq, Repr

/-- The collaborators of the duplicate driver.  `stack_sym_alg` is the
indeterminate content of the uninitialised local `sym_alg`. -/
structure Env where
  stack_sym_alg : TPMT_SYM_DEF_OBJECT
  tpm2_util_object_load : Option String → Option Nat
  tpm2_auth_util_from_optarg : Option String → tool_auth → Bool × tool_auth
  files_load_bytes_from_path : Option String → Nat → Option (List Nat)
  tpm2_auth_util_get_shandle : Nat → tool_auth → Nat
  Esys_Duplicate : Nat → Nat → Nat → Option (List Nat) → TPMT_SYM_DEF_OBJECT → Bool →
    Esys_Duplicate_response
  tpm2_session_save : Option Nat → Bool
  files_save_bytes_to_file : Option String → List Nat → Bool
  files_save_encrypted_seed : List Nat → Option String → Bool
  files_save_private : List Nat → Option String → Bool

/-- The function `do_duplicate`.  `want_out_key` says whether the `out_key`
argument is non-`NULL`.  On success the three outputs are returned. -/
def do_duplicate (env : Env) (ctx : tpm_duplicate_ctx) (in_key : Option (List Nat))
    (sym_alg : TPMT_SYM_DEF_OBJECT) (want_out_key : Bool) :
    Option (Option (List Nat) × List Nat × List Nat) × tpm_duplicate_ctx × List Event :=
  let shandle1 := env.tpm2_auth_util_get_shandle ctx.object_context ctx.auth
  let t1 := [Event.tpm2_auth_util_get_shandle ctx.object_context ctx.auth]
  if shandle1 = ESYS_TR_NONE then
    (none, { ctx with auth := { ctx.auth with session := none } },
      t1 ++ [Event.LOG_ERR "Failed to get shandle" [],
             Event.tpm2_session_free ctx.auth.session])
  else
    let resp := env.Esys_Duplicate ctx.object_context ctx.new_parent_object_context shandle1
      in_key sym_alg want_out_key
    let t2 := t1 ++ [Event.Esys_Duplicate ctx.object_context ctx.new_parent_object_context
      shandle1 in_key sym_alg want_out_key]
    if resp.rval ≠ TPM2_RC_SUCCESS then
      (none, { ctx with auth := { ctx.auth with session := none } },
        t2 ++ [Event.LOG_PERR "Esys_Duplicate" resp.rval,
               Event.tpm2_session_free ctx.auth.session])
    else
      (some (if want_out_key then resp.out_key else none, resp.duplicate, resp.encrypted_seed),
        ctx, t2)

/-- The function `set_key_algorithm`: the result and the updated `*obj`. -/
def set_key_algorithm (alg : Nat) (obj : TPMT_SYM_DEF_OBJECT) :
    Bool × TPMT_SYM_DEF_OBJECT × List Event :=
  if alg = TPM2_ALG_AES then
    (true, { obj with algorithm := TPM2_ALG_AES, keyBits := 128, mode := TPM2_ALG_CFB }, [])
  else if alg = TPM2_ALG_NULL then
    (true, { obj with algorithm := TPM2_ALG_NULL }, [])
  else
    (false, obj, [Event.LOG_ERR "The algorithm type input(0x%x) is not supported!" [alg]])

/-- Lines 287 to 294 of `tpm2_tool_onrun`: the optional authorization.  Returns
`result`, the updated context and the calls made. -/
def onrun_auth (env : Env) (ctx : tpm_duplicate_ctx) : Bool × tpm_duplicate_ctx × List Event :=
  if ctx.flags.p then
    let r := env.tpm2_auth_util_from_optarg ctx.object_auth_str ctx.auth
    let t := [Event.tpm2_auth_util_from_optarg ctx.object_auth_str]
    if r.1 = false then
      (false, { ctx with auth := r.2 },
        t ++ [Event.LOG_ERR "Invalid authorization, got\"%s\"" []])
    else (true, { ctx with auth := r.2 }, t)
  else (true, ctx, [])

/-- Lines 343 to 357 of `tpm2_tool_onrun`: the writes of the encrypted seed and
of the duplicate private blob, then `rc = 0`. -/
def onrun_persist (env : Env) (ctx : tpm_duplicate_ctx) (duplicate outSymSeed : List Nat) :
    Int × List Event :=
  let rc : Int := 1
  let t := [Event.files_save_encrypted_seed outSymSeed ctx.enc_seed_out]
  if env.files_save_encrypted_seed outSymSeed ctx.enc_seed_out = false then
    (rc, t ++ [Event.LOG_ERR "Failed to save encryption seed into file \"%s\"" []])
  else
    let t := t ++ [Event.files_save_private duplicate ctx.duplicate_key_private_file]
    if env.files_save_private duplicate ctx.duplicate_key_private_file = false then
      (rc, t ++ [Event.LOG_ERR "Failed to save private key into file \"%s\"" []])
    else
      (0, t)

/-- Lines 323 to 365 of `tpm2_tool_onrun`, run after a successful exchange:
`tpm2_session_save`, the check and write of the outgoing key, then
`onrun_persist`.  `out_key` is the local of that name (`none`: `NULL`). -/
def onrun_save (env : Env) (ctx : tpm_duplicate_ctx) (out_key : Option (List Nat))
    (duplicate outSymSeed : List Nat) : Int × List Event :=
  let rc : Int := 1
  let t := [Event.tpm2_session_save ctx.auth.session]
  if env.tpm2_session_save ctx.auth.session = false then (rc, t)
  else if ctx.flags.o then
    match out_key with
    | none => (rc, t ++ [Event.LOG_ERR "No encryption key from TPM " []])
    | some key =>
      let t := t ++ [Event.files_save_bytes_to_file ctx.sym_key_out key]
      if env.files_save_bytes_to_file ctx.sym_key_out key = false then
        (rc, t ++ [Event.LOG_ERR "Failed to save encryption key out into file \"%s\"" []])
      else
        let r := onrun_persist env ctx duplicate outSymSeed
        (r.1, t ++ r.2)
  else
    let r := onrun_persist env ctx duplicate outSymSeed
    (r.1, t ++ r.2)

/-- Lines 301 to 311 of `tpm2_tool_onrun`: under `ctx.flags.i` the inner key is
loaded into a 16 byte buffer and its size checked.  Returns the key (`none`:
the driver leaves through `out`) and the calls made; without `ctx.flags.i` the
local `in_key` stays unset, here `[]`. -/
def onrun_in_key (env : Env) (ctx : tpm_duplicate_ctx) : Option (List Nat) × List Event :=
  if ctx.flags.i then
    let t := [Event.files_load_bytes_from_path ctx.sym_key_in 16]
    match env.files_load_bytes_from_path ctx.sym_key_in 16 with
    | none => (none, t)
    | some in_key =>
      if in_key.length ≠ 16 then
        (none, t ++ [Event.LOG_ERR "Invalid AES key size, got %u bytes, expected 16"
          [in_key.length]])
      else (some in_key, t)
  else (some [], [])

/-- The function `tpm2_tool_onrun` of `tpm2_duplicate.c`: the `int` result and
the trace of the calls made. -/
def tpm2_tool_onrun (env : Env) (ctx : tpm_duplicate_ctx) : Int × List Event :=
  let rc : Int := 1
  let sym_alg := env.stack_sym_alg
  let c := check_options ctx
  let t := c.2
  if c.1 = false then (rc, t)
  else
    let t := t ++ [Event.tpm2_util_object_load ctx.object_arg]
    match env.tpm2_util_object_load ctx.object_arg with
    | none => (rc, t)
    | some obj =>
      let ctx := { ctx with object_context := obj }
      let t := t ++ [Event.tpm2_util_object_load ctx.new_parent_object_arg]
      match env.tpm2_util_object_load ctx.new_parent_object_arg with
      | none => (rc, t)
      | some parent =>
        let ctx := { ctx with new_parent_object_context := parent }
        let a := onrun_auth env ctx
        let ctx := a.2.1
        let t := t ++ a.2.2
        if a.1 = false then (rc, t)
        else
          let k := set_key_algorithm ctx.key_type sym_alg
          let sym_alg := k.2.1
          let t := t ++ k.2.2
          if k.1 = false then (rc, t)
          else
            let l := onrun_in_key env ctx
            let t := t ++ l.2
            match l.1 with
            | none => (rc, t)
            | some in_key =>
              let d := do_duplicate env ctx (if ctx.flags.i then some in_key else none)
                sym_alg ctx.flags.o
              let ctx := d.2.1
              let t := t ++ d.2.2
              match d.1 with
              | none => (rc, t)
              | some (out_key, duplicate, outSymSeed) =>
                let r := onrun_save env ctx out_key duplicate outSymSeed
                (r.1, t ++ r.2)

/-- The answer of the file system to a write event (`true` for other events). -/
def write_result (env : Env) : Event → Bool
  | .files_save_bytes_to_file path bytes => env.files_save_bytes_to_file path bytes
  | .files_save_encrypted_seed seed path => env.files_save_encrypted_seed seed path
  | .files_save_private priv path => env.files_save_private priv path
  | _ => true

/-- The writes of a list that are attempted when the list is worked through in
order and abandoned at the first write that fails. -/
def attempted (env : Env) : List Event → List Event
  | [] => []
  | w :: ws => if write_result env w then w :: attempted env ws else [w]

/-! ### Concrete runs -/

/-- A TPM and a file system on which every call succeeds: the key file holds 16
zero bytes, the exchange returns the blob `01 02`, the seed `03 04` and, when
asked, an outgoing key. -/
def env_ok : Env :=
  { stack_sym_alg := { algorithm := 0, keyBits := 0, mode := 0 }
    tpm2_util_object_load := fun arg =>
      if arg = some "0x81010001" then some 1 else if arg = some "0x81010002" then some 2
      else none
    tpm2_auth_util_from_optarg := fun _ a => (true, a)
    files_load_bytes_from_path := fun _ _ => some (List.replicate 16 0)
    tpm2_auth_util_get_shandle := fun _ _ => TPM2_RS_PW
    Esys_Duplicate := fun _ _ _ _ _ _ =>
      { rval := TPM2_RC_SUCCESS, out_key := some (List.replicate 16 5), duplicate := [1, 2],
        encrypted_seed := [3, 4] }
    tpm2_session_save := fun _ => true
    files_save_bytes_to_file := fun _ _ => true
    files_save_encrypted_seed := fun _ _ => true
    files_save_private := fun _ _ => true }

/-- As `env_ok`, with a key file of 10 bytes. -/
def env_short_key : Env :=
  { env_ok with files_load_bytes_from_path := fun _ _ => some (List.replicate 10 0) }

/-- As `env_ok`, with an encrypted seed that cannot be written. -/
def env_seed_fails : Env :=
  { env_ok with files_save_encrypted_seed := fun _ _ => false }

/-- The algorithm parser on the names `aes`, `null` and `camellia`. -/
def alg_of_name (name : String) : Nat :=
  if name = "aes" then TPM2_ALG_AES
  else if name = "null" then TPM2_ALG_NULL
  else if name = "camellia" then TPM2_ALG_CAMELLIA
  else TPM2_ALG_ERROR

/-- The context after the given options, each accepted by `on_option`. -/
def ctx_of (opts : List (Char × String)) : tpm_duplicate_ctx :=
  opts.foldl (fun c o => (on_option alg_of_name c o.1 o.2).2.1) ctx

/-- The context after `-g aes -c 0x81010001 -C 0x81010002 -i key.bin -r dup.priv
-s dup.seed`. -/
def ctx_in : tpm_duplicate_ctx :=
  ctx_of [('g', "aes"), ('c', "0x81010001"), ('C', "0x81010002"), ('i', "key.bin"),
    ('r', "dup.priv"), ('s', "dup.seed")]

/-- The context after `-g aes -c 0x81010001 -C 0x81010002 -o key.out -r dup.priv
-s dup.seed`. -/
def ctx_out : tpm_duplicate_ctx :=
  ctx_of [('g', "aes"), ('c', "0x81010001"), ('C', "0x81010002"), ('o', "key.out"),
    ('r', "dup.priv"), ('s', "dup.seed")]

/-- The context after `-g camellia -c 0x81010001 -C 0x81010002 -i key.bin
-r dup.priv -s dup.seed`. -/
def ctx_camellia : tpm_duplicate_ctx :=
  ctx_of [('g', "camellia"), ('c', "0x81010001"), ('C', "0x81010002"), ('i', "key.bin"),
    ('r', "dup.priv"), ('s', "dup.seed")]

end Duplicate

namespace EncryptDecrypt

/-- The bit-field `flags` of `tpm_encrypt_decrypt_ctx`. -/
structure tpm_encrypt_decrypt_flags where
  p : Bool
  D : Bool
  i : Bool
  X : Bool
  deriving DecidableEq, Repr

/-- The `tpm_encrypt_decrypt_ctx` structure; `iv_in` and `iv_out` are the
members `iv.in` and `iv.out`, `key_context_object` is the `tr_handle` of the
loaded object. -/
structure tpm_encrypt_decrypt_ctx where
  auth : tool_auth
  is_decrypt : Nat
  data : List Nat
  input_path : Option String
  out_file_path : Option String
  context_arg : Option String
  key_context_object : Nat
  mode : Nat
  iv_in : Option String
  iv_out : Option String
  flags : tpm_encrypt_decrypt_flags
  key_auth_str : Option String
  deriving DecidableEq, Repr

/-- The static `ctx`: `mode = TPM2_ALG_NULL`, the password session, all else zero. -/
def ctx : tpm_encrypt_decrypt_ctx :=
  { auth := tool_auth.init
    is_decrypt := 0
    data := []
    input_path := none
    out_file_path := none
    context_arg := none
    key_context_object := 0
    mode := TPM2_ALG_NULL
    iv_in := none
    iv_out := none
    flags := { p := false, D := false, i := false, X := false }
    key_auth_str := none }

/-- The answer of `Esys_ReadPublic`: the status and the field
`publicArea.parameters.symDetail.sym.mode.sym` of the public area. -/
structure Esys_ReadPublic_response where
  rval : Nat
  mode_sym : Nat
  deriving DecidableEq, Repr

/-- The answer of `Esys_EncryptDecrypt2` and of `Esys_EncryptDecrypt`. -/
structure Esys_EncryptDecrypt_response where
  rval : Nat
  out_data : List Nat
  iv_out : List Nat
  deriving DecidableEq, Repr

/-- The collaborators of the encrypt/decrypt driver. -/
structure Env where
  tpm2_error_get : Nat → Nat
  files_load_bytes_from_buffer_or_file_or_stdin : Option String → Nat → Option (List Nat)
  tpm2_util_object_load : Option String → Option Nat
  tpm2_auth_util_from_optarg : Option String → tool_auth → Bool × tool_auth
  Esys_ReadPublic : Nat → Esys_ReadPublic_response
  files_get_file_size_path : Option String → Option Nat
  files_load_bytes_from_path : Option String → Nat → Option (List Nat)
  tpm2_auth_util_get_shandle : Nat → tool_auth → Nat
  Esys_EncryptDecrypt2 : Nat → Nat → List Nat → Nat → Nat → List Nat →
    Esys_EncryptDecrypt_response
  Esys_EncryptDecrypt : Nat → Nat → Nat → Nat → List Nat → List Nat →
    Esys_EncryptDecrypt_response
  files_save_bytes_to_file : Option String → List Nat → Bool
  tpm2_session_save : Option Nat → Bool

/-- The function `readpub`: on success the public area (its symmetric mode). -/
def readpub (env : Env) (ctx : tpm_encrypt_decrypt_ctx) : Option Nat × List Event :=
  let r := env.Esys_ReadPublic ctx.key_context_object
  let t := [Event.Esys_ReadPublic ctx.key_context_object]
  if r.rval ≠ TPM2_RC_SUCCESS then
    (none, t ++ [Event.LOG_PERR "Esys_ReadPublic" r.rval])
  else
    (some r.mode_sym, t)

/-- Lines 135 to 147 of `encrypt_decrypt`: the output data is written, then the
output IV when `ctx.iv.out` is set. -/
def encrypt_decrypt_save (env : Env) (ctx : tpm_encrypt_decrypt_ctx)
    (out_data iv_out : List Nat) : Bool × List Event :=
  let result := env.files_save_bytes_to_file ctx.out_file_path out_data
  let t := [Event.files_save_bytes_to_file ctx.out_file_path out_data]
  if result then
    match ctx.iv_out with
    | some path =>
      (env.files_save_bytes_to_file (some path) iv_out,
        t ++ [Event.files_save_bytes_to_file (some path) iv_out])
    | none => (true, t)
  else (result, t)

/-- The function `encrypt_decrypt`: the `bool` result and the calls made. -/
def encrypt_decrypt (env : Env) (ctx : tpm_encrypt_decrypt_ctx) (iv_in : List Nat) :
    Bool × List Event :=
  let shandle1 := env.tpm2_auth_util_get_shandle ctx.key_context_object ctx.auth
  let t := [Event.tpm2_auth_util_get_shandle ctx.key_context_object ctx.auth]
  if shandle1 = ESYS_TR_NONE then
    (false, t ++ [Event.LOG_ERR "Failed to get shandle" []])
  else
    let r2 := env.Esys_EncryptDecrypt2 ctx.key_context_object shandle1 ctx.data
      ctx.is_decrypt ctx.mode iv_in
    let t := t ++ [Event.Esys_EncryptDecrypt2 ctx.key_context_object shandle1 ctx.data
      ctx.is_decrypt ctx.mode iv_in]
    let v : Nat × Esys_EncryptDecrypt_response × List Event :=
      if env.tpm2_error_get r2.rval = TPM2_RC_COMMAND_CODE then
        (1, env.Esys_EncryptDecrypt ctx.key_context_object shandle1 ctx.is_decrypt ctx.mode
              iv_in ctx.data,
          t ++ [Event.Esys_EncryptDecrypt ctx.key_context_object shandle1 ctx.is_decrypt
              ctx.mode iv_in ctx.data])
      else (2, r2, t)
    let version := v.1
    let r := v.2.1
    let t := v.2.2
    if r.rval ≠ TPM2_RC_SUCCESS then
      if version = 2 then (false, t ++ [Event.LOG_PERR "Esys_EncryptDecrypt2" r.rval])
      else (false, t ++ [Event.LOG_PERR "Esys_EncryptDecrypt" r.rval])
    else
      let w := encrypt_decrypt_save env ctx r.out_data r.iv_out
      (w.1, t ++ w.2)

/-- The function `parse_iv`: `iv.in` is the text before the first colon (the
colon is overwritten with the terminator), `iv.out` the text after it; without
a colon `iv.out` is left as it was. -/
def parse_iv (ctx : tpm_encrypt_decrypt_ctx) (value : String) : tpm_encrypt_decrypt_ctx :=
  let cs := value.toList
  if ':' ∈ cs then
    { ctx with iv_in := some (String.mk (cs.takeWhile (fun c => c != ':')))
               iv_out := some (String.mk ((cs.dropWhile (fun c => c != ':')).drop 1)) }
  else
    { ctx with iv_in := some value }

/-- The option callback.  `tpm2_alg_util_strtoalg` (with the flag `mode`) is a
parameter.  An option without argument has `value = none`. -/
def on_option (tpm2_alg_util_strtoalg : Option String → Nat) (ctx : tpm_encrypt_decrypt_ctx)
    (key : Char) (value : Option String) : Bool × tpm_encrypt_decrypt_ctx × List Event :=
  if key = 'c' then (true, { ctx with context_arg := value }, [])
  else if key = 'p' then
    (true, { ctx with flags := { ctx.flags with p := true }, key_auth_str := value }, [])
  else if key = 'D' then (true, { ctx with is_decrypt := 1 }, [])
  else if key = 'i' then
    (true, { ctx with input_path := value, flags := { ctx.flags with i := true } }, [])
  else if key = 'o' then (true, { ctx with out_file_path := value }, [])
  else if key = 'G' then
    let mode := tpm2_alg_util_strtoalg value
    if mode = TPM2_ALG_ERROR then
      (false, { ctx with mode := mode }, [Event.LOG_ERR "Invalid mode, got: %s" []])
    else (true, { ctx with mode := mode }, [])
  else if key = 't' then
    match value with
    | some v => (true, parse_iv ctx v, [])
    | none => (true, ctx, [])
  else (true, ctx, [])

/-- The label `out:` of `tpm2_tool_onrun` (lines 306 to 312): save the session,
a failure sets `rc = 1`. -/
def tpm2_tool_onrun_out (env : Env) (ctx : tpm_encrypt_decrypt_ctx) (rc : Int) :
    Int × List Event :=
  let result := env.tpm2_session_save ctx.auth.session
  let t := [Event.tpm2_session_save ctx.auth.session]
  if result = false then (1, t) else (rc, t)

/-- Lines 242 to 250 of `tpm2_tool_onrun`: the optional authorization.  Returns
`result`, the updated context and the calls made. -/
def onrun_auth (env : Env) (ctx : tpm_encrypt_decrypt_ctx) :
    Bool × tpm_encrypt_decrypt_ctx × List Event :=
  if ctx.flags.p then
    let r := env.tpm2_auth_util_from_optarg ctx.key_auth_str ctx.auth
    let t := [Event.tpm2_auth_util_from_optarg ctx.key_auth_str]
    if r.1 = false then
      (false, { ctx with auth := r.2 },
        t ++ [Event.LOG_ERR "Invalid object key authorization, got\"%s\"" []])
    else (true, { ctx with auth := r.2 }, t)
  else (true, ctx, [])

/-- Lines 258 to 274 of `tpm2_tool_onrun`: the value of `ctx.mode` after the
mode resolution (`none`: `readpub` failed and the driver leaves through `out`). -/
def onrun_mode (env : Env) (ctx : tpm_encrypt_decrypt_ctx) : Option Nat × List Event :=
  if ctx.mode = TPM2_ALG_NULL then
    let pub := readpub env ctx
    match pub.1 with
    | none => (none, pub.2)
    | some objmode =>
      if objmode = TPM2_ALG_NULL then (some TPM2_ALG_CFB, pub.2)
      else (some objmode, pub.2)
  else (some ctx.mode, [])

/-- Lines 276 to 298 of `tpm2_tool_onrun`: the local `iv`, zero-initialised with
`size = sizeof(iv.buffer)`, loaded from `ctx.iv.in` when that is set (`none`:
the driver leaves through `out`). -/
def onrun_iv (env : Env) (ctx : tpm_encrypt_decrypt_ctx) : Option (List Nat) × List Event :=
  let iv : List Nat := List.replicate TPM2_MAX_SYM_BLOCK_SIZE 0
  match ctx.iv_in with
  | some path =>
    let t := [Event.files_get_file_size_path (some path)]
    match env.files_get_file_size_path (some path) with
    | none => (none, t)
    | some file_size =>
      if file_size ≠ iv.length then
        (none, t ++ [Event.LOG_ERR "Iv should be 16 bytes, got %lu" [file_size]])
      else
        let t := t ++ [Event.files_load_bytes_from_path (some path) iv.length]
        match env.files_load_bytes_from_path (some path) iv.length with
        | none => (none, t)
        | some bytes => (some bytes, t)
  | none => (some iv, [Event.LOG_WARN "Using a weak IV, try specifying an IV"])

/-- The function `tpm2_tool_onrun` of `tpm2_encryptdecrypt.c`: the `int` result
and the trace of the calls made.  `return false` is the `int` 0. -/
def tpm2_tool_onrun (env : Env) (ctx : tpm_encrypt_decrypt_ctx) : Int × List Event :=
  let rc : Int := 1
  match ctx.context_arg with
  | none => (-1, [Event.LOG_ERR "Expected a context file or handle, got none." []])
  | some _ =>
    let t := [Event.files_load_bytes_from_buffer_or_file_or_stdin ctx.input_path
      TPM2_MAX_DIGEST_BUFFER]
    match env.files_load_bytes_from_buffer_or_file_or_stdin ctx.input_path
      TPM2_MAX_DIGEST_BUFFER with
    | none => (0, t)
    | some data =>
      let ctx := { ctx with data := data }
      let t := t ++ [Event.tpm2_util_object_load ctx.context_arg]
      match env.tpm2_util_object_load ctx.context_arg with
      | none =>
        let r := tpm2_tool_onrun_out env ctx rc
        (r.1, t ++ r.2)
      | some handle =>
        let ctx := { ctx with key_context_object := handle }
        let a := onrun_auth env ctx
        let ctx := a.2.1
        let t := t ++ a.2.2
        if a.1 = false then
          let r := tpm2_tool_onrun_out env ctx rc
          (r.1, t ++ r.2)
        else
          let m := onrun_mode env ctx
          let t := t ++ m.2
          match m.1 with
          | none =>
            let r := tpm2_tool_onrun_out env ctx rc
            (r.1, t ++ r.2)
          | some mode =>
            let ctx := { ctx with mode := mode }
            let v := onrun_iv env ctx
            let t := t ++ v.2
            match v.1 with
            | none =>
              let r := tpm2_tool_onrun_out env ctx rc
              (r.1, t ++ r.2)
            | some iv =>
              let e := encrypt_decrypt env ctx iv
              let t := t ++ e.2
              let r := tpm2_tool_onrun_out env ctx (if e.1 = false then rc else 0)
              (r.1, t ++ r.2)

/-! ### Concrete runs -/

/-- A TPM and a file system on which every call succeeds: the input is five
bytes, the object has no recorded mode, both variants echo the data. -/
def env_ok : Env :=
  { tpm2_error_get := fun rc => rc % 65536
    files_load_bytes_from_buffer_or_file_or_stdin := fun _ _ => some [1, 2, 3, 4, 5]
    tpm2_util_object_load := fun _ => some 7
    tpm2_auth_util_from_optarg := fun _ a => (true, a)
    Esys_ReadPublic := fun _ => { rval := TPM2_RC_SUCCESS, mode_sym := TPM2_ALG_NULL }
    files_get_file_size_path := fun _ => some 16
    files_load_bytes_from_path := fun _ _ => some (List.replicate 16 9)
    tpm2_auth_util_get_shandle := fun _ _ => TPM2_RS_PW
    Esys_EncryptDecrypt2 := fun _ _ d _ _ iv =>
      { rval := TPM2_RC_SUCCESS, out_data := d, iv_out := iv }
    Esys_EncryptDecrypt := fun _ _ _ _ iv d =>
      { rval := TPM2_RC_SUCCESS, out_data := d, iv_out := iv }
    files_save_bytes_to_file := fun _ _ => true
    tpm2_session_save := fun _ => true }

/-- As `env_ok`, with an input that cannot be loaded (it exceeds the buffer). -/
def env_load_fails : Env :=
  { env_ok with files_load_bytes_from_buffer_or_file_or_stdin := fun _ _ => none }

/-- As `env_ok`, with IV files of 10 bytes. -/
def env_iv10 : Env :=
  { env_ok with files_get_file_size_path := fun _ => some 10 }

/-- As `env_ok`, with a key object whose recorded mode is CBC. -/
def env_cbc : Env :=
  { env_ok with
    Esys_ReadPublic := fun _ => { rval := TPM2_RC_SUCCESS, mode_sym := TPM2_ALG_CBC } }

/-- The context after the options `-c 0x81010001 -o out.bin`. -/
def ctx_run : tpm_encrypt_decrypt_ctx :=
  { ctx with context_arg := some "0x81010001", out_file_path := some "out.bin" }

/-- The context after the options `-c 0x81010001 -o out.bin -p pw -t iv.bin`. -/
def ctx_iv : tpm_encrypt_decrypt_ctx :=
  { ctx_run with
    iv_in := some "iv.bin"
    key_auth_str := some "pw"
    flags := { ctx_run.flags with p := true } }

end EncryptDecrypt

/-! ## Theorems -/

theorem setup_not_operation (x : Event) (hx : x.is_setup = true) :
    x.is_operation = false ∧ x.is_get_shandle = false ∧ x.is_session_save = false ∧
    x.is_duplicate = false ∧ x.is_write = false := by
  cases x <;> simp_all [Event.is_setup, Event.is_operation, Event.operation_args,
    Event.is_get_shandle, Event.is_session_save, Event.is_duplicate, Event.is_write]

namespace Duplicate

theorem check_fst (cond : Bool) (msg : String) (acc : Bool × List Event) :
    (check cond msg acc).1 = (!cond && acc.1) := by
  unfold check
  cases cond <;> simp

/-- C1. For an inner algorithm of AES or NULL, `check_options` succeeds exactly
when the five required options `-g -C -c -s -r` were all given and the key-file
options fit the algorithm: for NULL neither `-i` nor `-o`, for AES exactly one
of the two. -/
theorem check_options_iff (ctx : tpm_duplicate_ctx)
    (halg : ctx.key_type = TPM2_ALG_AES ∨ ctx.key_type = TPM2_ALG_NULL) :
    (check_options ctx).1 = true ↔
      (ctx.flags.g = true ∧ ctx.flags.C = true ∧ ctx.flags.c = true ∧
        ctx.flags.s = true ∧ ctx.flags.r = true) ∧
      (ctx.key_type = TPM2_ALG_NULL → ctx.flags.i = false ∧ ctx.flags.o = false) ∧
      (ctx.key_type = TPM2_ALG_AES →
        (ctx.flags.i = true ∧ ctx.flags.o = false) ∨
        (ctx.flags.i = false ∧ ctx.flags.o = true)) := by
  have hne : TPM2_ALG_AES ≠ TPM2_ALG_NULL := by decide
  rcases halg with h | h
  · have h2 : ctx.key_type ≠ TPM2_ALG_NULL := by rw [h]; exact hne
    simp only [check_options, check_fst, if_pos h2]
    rw [h]
    cases ctx.flags.g <;> cases ctx.flags.C <;> cases ctx.flags.c <;> cases ctx.flags.s <;>
      cases ctx.flags.r <;> cases ctx.flags.i <;> cases ctx.flags.o <;> simp [hne]
  · have h2 : ¬ ctx.key_type ≠ TPM2_ALG_NULL := by simp [h]
    simp only [check_options, check_fst, if_neg h2]
    rw [h]
    cases ctx.flags.g <;> cases ctx.flags.C <;> cases ctx.flags.c <;> cases ctx.flags.s <;>
      cases ctx.flags.r <;> cases ctx.flags.i <;> cases ctx.flags.o <;> simp [hne.symm]

end Duplicate

namespace Duplicate

/-- After `-g aes -c 0x81010001 -C 0x81010002 -i key.bin -r dup.priv -s dup.seed`
the inner algorithm is AES and `check_options` succeeds. -/
theorem check_options_iff_witness :
    (ctx_in.key_type = TPM2_ALG_AES ∨ ctx_in.key_type = TPM2_ALG_NULL) ∧
    (check_options ctx_in).1 = true :=
  ⟨Or.inl rfl, (check_options_iff ctx_in (Or.inl rfl)).2
    ⟨⟨rfl, rfl, rfl, rfl, rfl⟩, fun h => absurd h (by decide), fun _ => Or.inl ⟨rfl, rfl⟩⟩⟩

end Duplicate

namespace EncryptDecrypt

/-- The four outcomes of `encrypt_decrypt` once the authorization handle is
obtained, and when the legacy variant is called. -/
theorem encrypt_decrypt_cases (env : Env) (ctx : tpm_encrypt_decrypt_ctx)
    (iv_in : List Nat) :
    let sh := env.tpm2_auth_util_get_shandle ctx.key_context_object ctx.auth
    let r2 := env.Esys_EncryptDecrypt2 ctx.key_context_object sh ctx.data ctx.is_decrypt
      ctx.mode iv_in
    let r1 := env.Esys_EncryptDecrypt ctx.key_context_object sh ctx.is_decrypt ctx.mode
      iv_in ctx.data
    let e_sh := Event.tpm2_auth_util_get_shandle ctx.key_context_object ctx.auth
    let e2 := Event.Esys_EncryptDecrypt2 ctx.key_context_object sh ctx.data ctx.is_decrypt
      ctx.mode iv_in
    let e1 := Event.Esys_EncryptDecrypt ctx.key_context_object sh ctx.is_decrypt ctx.mode
      iv_in ctx.data
    let res := encrypt_decrypt env ctx iv_in
    ((∃ e ∈ res.2, e.is_legacy = true) ↔
      (sh ≠ ESYS_TR_NONE ∧ env.tpm2_error_get r2.rval = TPM2_RC_COMMAND_CODE)) ∧
    (sh ≠ ESYS_TR_NONE →
      (env.tpm2_error_get r2.rval = TPM2_RC_COMMAND_CODE → r1.rval = TPM2_RC_SUCCESS →
        res = ((encrypt_decrypt_save env ctx r1.out_data r1.iv_out).1,
               [e_sh, e2, e1] ++ (encrypt_decrypt_save env ctx r1.out_data r1.iv_out).2) ∧
        (env.files_save_bytes_to_file ctx.out_file_path r1.out_data = true →
          (∀ path, ctx.iv_out = some path →
            env.files_save_bytes_to_file (some path) r1.iv_out = true) →
          res.1 = true)) ∧
      (env.tpm2_error_get r2.rval = TPM2_RC_COMMAND_CODE → r1.rval ≠ TPM2_RC_SUCCESS →
        res = (false, [e_sh, e2, e1, Event.LOG_PERR "Esys_EncryptDecrypt" r1.rval])) ∧
      (env.tpm2_error_get r2.rval ≠ TPM2_RC_COMMAND_CODE → r2.rval ≠ TPM2_RC_SUCCESS →
        res = (false, [e_sh, e2, Event.LOG_PERR "Esys_EncryptDecrypt2" r2.rval])) ∧
      (env.tpm2_error_get r2.rval ≠ TPM2_RC_COMMAND_CODE → r2.rval = TPM2_RC_SUCCESS →
        res = ((encrypt_decrypt_save env ctx r2.out_data r2.iv_out).1,
               [e_sh, e2] ++ (encrypt_decrypt_save env ctx r2.out_data r2.iv_out).2))) := by
  have hsave : ∀ (o i : List Nat) (e : Event), e ∈ (encrypt_decrypt_save env ctx o i).2 →
      e.is_legacy = false := by
    intro o i e he
    unfold encrypt_decrypt_save at he
    simp only [] at he
    split at he
    · split at he <;> simp at he
      · rcases he with rfl | rfl <;> rfl
      · subst he; rfl
    · simp at he; subst he; rfl
  intro sh r2 r1 e_sh e2 e1 res
  by_cases hsh : sh = ESYS_TR_NONE
  · have hres : res = (false, [e_sh, Event.LOG_ERR "Failed to get shandle" []]) := by
      show encrypt_decrypt env ctx iv_in = _
      unfold encrypt_decrypt
      simp only [if_pos hsh]
      rfl
    refine ⟨?_, fun h => absurd hsh h⟩
    rw [hres]
    simp [hsh, e_sh, Event.is_legacy]
  · by_cases hcc : env.tpm2_error_get r2.rval = TPM2_RC_COMMAND_CODE
    · by_cases hr : r1.rval = TPM2_RC_SUCCESS
      · have hres : res = ((encrypt_decrypt_save env ctx r1.out_data r1.iv_out).1,
            [e_sh, e2, e1] ++ (encrypt_decrypt_save env ctx r1.out_data r1.iv_out).2) := by
          show encrypt_decrypt env ctx iv_in = _
          unfold encrypt_decrypt
          simp only [if_neg hsh, if_pos hcc]
          have hr1 : (env.Esys_EncryptDecrypt ctx.key_context_object
              (env.tpm2_auth_util_get_shandle ctx.key_context_object ctx.auth) ctx.is_decrypt
              ctx.mode iv_in ctx.data).rval = TPM2_RC_SUCCESS := hr
          simp [hr1, e_sh, e2, e1, r1, sh]
        refine ⟨?_, fun _ => ⟨fun _ _ => ⟨hres, ?_⟩, fun _ h => absurd hr h,
          fun h => absurd hcc h, fun h => absurd hcc h⟩⟩
        · rw [hres]
          simp only [hsh, hcc, ne_eq, not_false_eq_true, and_self, iff_true]
          exact ⟨e1, by simp, rfl⟩
        · intro hw1 hw2
          rw [hres]
          show (encrypt_decrypt_save env ctx r1.out_data r1.iv_out).1 = true
          unfold encrypt_decrypt_save
          simp only [hw1, if_true]
          split
          · next path hp => exact hw2 path hp
          · rfl
      · have hres : res = (false, [e_sh, e2, e1, Event.LOG_PERR "Esys_EncryptDecrypt" r1.rval]) := by
          show encrypt_decrypt env ctx iv_in = _
          unfold encrypt_decrypt
          simp only [if_neg hsh, if_pos hcc]
          simp [hr, e_sh, e2, e1, r1, sh]
        refine ⟨?_, fun _ => ⟨fun _ h => absurd h hr, fun _ _ => hres,
          fun h => absurd hcc h, fun h => absurd hcc h⟩⟩
        rw [hres]
        simp only [hsh, hcc, ne_eq, not_false_eq_true, and_self, iff_true]
        exact ⟨e1, by simp, rfl⟩
    · by_cases hr : r2.rval = TPM2_RC_SUCCESS
      · have hres : res = ((encrypt_decrypt_save env ctx r2.out_data r2.iv_out).1,
            [e_sh, e2] ++ (encrypt_decrypt_save env ctx r2.out_data r2.iv_out).2) := by
          show encrypt_decrypt env ctx iv_in = _
          unfold encrypt_decrypt
          simp only [if_neg hsh, if_neg hcc]
          have hr2 : (env.Esys_EncryptDecrypt2 ctx.key_context_object
              (env.tpm2_auth_util_get_shandle ctx.key_context_object ctx.auth) ctx.data
              ctx.is_decrypt ctx.mode iv_in).rval = TPM2_RC_SUCCESS := hr
          simp [hr2, e_sh, e2, r2, sh]
        refine ⟨?_, fun _ => ⟨fun h => absurd h hcc, fun h => absurd h hcc,
          fun _ h => absurd hr h, fun _ _ => hres⟩⟩
        rw [hres]
        simp only [hcc, and_false, iff_false, not_exists, not_and, Bool.not_eq_true]
        intro e he
        simp only [List.cons_append, List.nil_append, List.mem_cons] at he
        rcases he with rfl | rfl | he
        · rfl
        · rfl
        · exact hsave _ _ e he
      · have hres : res = (false, [e_sh, e2, Event.LOG_PERR "Esys_EncryptDecrypt2" r2.rval]) := by
          show encrypt_decrypt env ctx iv_in = _
          unfold encrypt_decrypt
          simp only [if_neg hsh, if_neg hcc]
          simp [hr, e_sh, e2, r2, sh]
        refine ⟨?_, fun _ => ⟨fun h => absurd h hcc, fun h => absurd h hcc,
          fun _ _ => hres, fun _ h => absurd h hr⟩⟩
        rw [hres]
        simp [hcc, e_sh, e2, Event.is_legacy]

end EncryptDecrypt

namespace EncryptDecrypt

theorem onrun_auth_spec (env : Env) (ctx : tpm_encrypt_decrypt_ctx) :
    ((onrun_auth env ctx).2.1.key_context_object = ctx.key_context_object ∧
      (onrun_auth env ctx).2.1.mode = ctx.mode ∧
      (onrun_auth env ctx).2.1.iv_in = ctx.iv_in) ∧
    (∀ e ∈ (onrun_auth env ctx).2.2, e.is_setup = true) ∧
    (ctx.flags.p = false → onrun_auth env ctx = (true, ctx, [])) ∧
    ((env.tpm2_auth_util_from_optarg ctx.key_auth_str ctx.auth).1 = true →
      (onrun_auth env ctx).1 = true) := by
  unfold onrun_auth
  cases hp : ctx.flags.p
  · simp
  · cases hr : (env.tpm2_auth_util_from_optarg ctx.key_auth_str ctx.auth).1
    · simp [hr, Event.is_setup]
    · simp [hr, Event.is_setup]

theorem readpub_setup (env : Env) (ctx : tpm_encrypt_decrypt_ctx) :
    ∀ e ∈ (readpub env ctx).2, e.is_setup = true := by
  unfold readpub
  by_cases h : (env.Esys_ReadPublic ctx.key_context_object).rval = TPM2_RC_SUCCESS
  · simp [h, Event.is_setup]
  · simp [h, Event.is_setup]

theorem readpub_fst (env : Env) (ctx : tpm_encrypt_decrypt_ctx) :
    (readpub env ctx).1 =
      if (env.Esys_ReadPublic ctx.key_context_object).rval ≠ TPM2_RC_SUCCESS then none
      else some (env.Esys_ReadPublic ctx.key_context_object).mode_sym := by
  unfold readpub
  by_cases h : (env.Esys_ReadPublic ctx.key_context_object).rval = TPM2_RC_SUCCESS
  · simp [h]
  · simp [h]

theorem onrun_mode_spec (env : Env) (ctx : tpm_encrypt_decrypt_ctx) :
    (∀ e ∈ (onrun_mode env ctx).2, e.is_setup = true) ∧
    (∀ mode, (onrun_mode env ctx).1 = some mode →
      mode = if ctx.mode = TPM2_ALG_NULL then
        (if (env.Esys_ReadPublic ctx.key_context_object).mode_sym = TPM2_ALG_NULL then
          TPM2_ALG_CFB
        else (env.Esys_ReadPublic ctx.key_context_object).mode_sym)
      else ctx.mode) ∧
    ((ctx.mode = TPM2_ALG_NULL →
        (env.Esys_ReadPublic ctx.key_context_object).rval = TPM2_RC_SUCCESS) →
      (onrun_mode env ctx).1 ≠ none) := by
  unfold onrun_mode
  by_cases hm : ctx.mode = TPM2_ALG_NULL
  · simp only [if_pos hm]
    have hs := readpub_setup env ctx
    have hf := readpub_fst env ctx
    by_cases h : (env.Esys_ReadPublic ctx.key_context_object).rval = TPM2_RC_SUCCESS
    · simp only [h, ne_eq, not_true_eq_false, if_false] at hf
      simp only [hf]
      by_cases ho : (env.Esys_ReadPublic ctx.key_context_object).mode_sym = TPM2_ALG_NULL
      · simp only [if_pos ho]
        exact ⟨hs, fun m hm2 => by simpa using hm2.symm, fun _ => by simp⟩
      · simp only [if_neg ho]
        exact ⟨hs, fun m hm2 => by simpa using hm2.symm, fun _ => by simp⟩
    · simp only [h, ne_eq, not_false_eq_true, if_true] at hf
      simp only [hf]
      exact ⟨hs, fun m hm2 => by simp at hm2, fun h2 => absurd (h2 hm) h⟩
  · simp [hm]

theorem onrun_iv_spec (env : Env) (ctx : tpm_encrypt_decrypt_ctx) :
    (∀ e ∈ (onrun_iv env ctx).2, e.is_setup = true) ∧
    (∀ iv, (onrun_iv env ctx).1 = some iv →
      (ctx.iv_in = none → iv = List.replicate 16 0) ∧
      (∀ path, ctx.iv_in = some path → env.files_get_file_size_path (some path) = some 16)) ∧
    (ctx.iv_in = none → (onrun_iv env ctx).1 = some (List.replicate 16 0)) := by
  unfold onrun_iv
  cases hi : ctx.iv_in with
  | none => simp [Event.is_setup, TPM2_MAX_SYM_BLOCK_SIZE]
  | some path =>
    cases hs : env.files_get_file_size_path (some path) with
    | none => simp [Event.is_setup, hs]
    | some n =>
      by_cases hn : n = 16
      · subst hn
        cases hl : env.files_load_bytes_from_path (some path) 16 with
        | none => simp [Event.is_setup, hs, hl, TPM2_MAX_SYM_BLOCK_SIZE]
        | some b => simp [Event.is_setup, hs, hl, TPM2_MAX_SYM_BLOCK_SIZE]
      · simp [Event.is_setup, hs, hn, TPM2_MAX_SYM_BLOCK_SIZE]

theorem encrypt_decrypt_save_trace (env : Env) (ctx : tpm_encrypt_decrypt_ctx)
    (o i : List Nat) :
    ∀ e ∈ (encrypt_decrypt_save env ctx o i).2,
      e.is_session_save = false ∧ e.operation_args = none := by
  intro e he
  unfold encrypt_decrypt_save at he
  simp only [] at he
  split at he
  · split at he <;> simp at he
    · rcases he with rfl | rfl <;> exact ⟨rfl, rfl⟩
    · subst he; exact ⟨rfl, rfl⟩
  · simp at he; subst he; exact ⟨rfl, rfl⟩

theorem encrypt_decrypt_trace (env : Env) (ctx : tpm_encrypt_decrypt_ctx) (iv : List Nat) :
    ∀ e ∈ (encrypt_decrypt env ctx iv).2,
      e.is_session_save = false ∧
      (∀ k m i, e.operation_args = some (k, m, i) →
        k = ctx.key_context_object ∧ m = ctx.mode ∧ i = iv) := by
  have key := encrypt_decrypt_cases env ctx iv
  simp only [] at key
  have hsv := encrypt_decrypt_save_trace env ctx
  intro e he
  by_cases hsh : env.tpm2_auth_util_get_shandle ctx.key_context_object ctx.auth = ESYS_TR_NONE
  · unfold encrypt_decrypt at he
    simp only [if_pos hsh] at he
    simp at he
    rcases he with rfl | rfl <;> simp [Event.is_session_save, Event.operation_args]
  · obtain ⟨h1, h2, h3, h4⟩ := key.2 hsh
    by_cases hcc : env.tpm2_error_get (env.Esys_EncryptDecrypt2 ctx.key_context_object
        (env.tpm2_auth_util_get_shandle ctx.key_context_object ctx.auth) ctx.data
        ctx.is_decrypt ctx.mode iv).rval = TPM2_RC_COMMAND_CODE
    · by_cases hr : (env.Esys_EncryptDecrypt ctx.key_context_object
          (env.tpm2_auth_util_get_shandle ctx.key_context_object ctx.auth) ctx.is_decrypt
          ctx.mode iv ctx.data).rval = TPM2_RC_SUCCESS
      · rw [(h1 hcc hr).1] at he
        simp only [List.cons_append, List.nil_append, List.mem_cons] at he
        rcases he with rfl | rfl | rfl | he
        · simp [Event.is_session_save, Event.operation_args]
        · simp [Event.is_session_save, Event.operation_args]
        · simp [Event.is_session_save, Event.operation_args]
        · have := hsv _ _ e he
          simp [this.1, this.2]
      · rw [h2 hcc hr] at he
        simp only [List.mem_cons, List.mem_singleton] at he
        rcases he with rfl | rfl | rfl | rfl | he <;>
          simp_all [Event.is_session_save, Event.operation_args]
    · by_cases hr : (env.Esys_EncryptDecrypt2 ctx.key_context_object
          (env.tpm2_auth_util_get_shandle ctx.key_context_object ctx.auth) ctx.data
          ctx.is_decrypt ctx.mode iv).rval = TPM2_RC_SUCCESS
      · rw [h4 hcc hr] at he
        simp only [List.cons_append, List.nil_append, List.mem_cons] at he
        rcases he with rfl | rfl | he
        · simp [Event.is_session_save, Event.operation_args]
        · simp [Event.is_session_save, Event.operation_args]
        · have := hsv _ _ e he
          simp [this.1, this.2]
      · rw [h3 hcc hr] at he
        simp only [List.mem_cons, List.mem_singleton] at he
        rcases he with rfl | rfl | rfl | he <;>
          simp_all [Event.is_session_save, Event.operation_args]

/-- The shape of every run of `tpm2_tool_onrun`: it stops at the missing
context argument, or at the input that cannot be loaded, or leaves through
`out` before the operation, or reaches `encrypt_decrypt` with the resolved
mode and IV and then leaves through `out`. -/
theorem tpm2_tool_onrun_cases (env : Env) (ctx : tpm_encrypt_decrypt_ctx) :
    let e_load := Event.files_load_bytes_from_buffer_or_file_or_stdin ctx.input_path
      TPM2_MAX_DIGEST_BUFFER
    let e_obj := Event.tpm2_util_object_load ctx.context_arg
    (ctx.context_arg = none ∧ tpm2_tool_onrun env ctx =
      (-1, [Event.LOG_ERR "Expected a context file or handle, got none." []])) ∨
    (env.files_load_bytes_from_buffer_or_file_or_stdin ctx.input_path TPM2_MAX_DIGEST_BUFFER
        = none ∧ tpm2_tool_onrun env ctx = (0, [e_load])) ∨
    (∃ s t0, (∀ e ∈ t0, e.is_setup = true) ∧
      tpm2_tool_onrun env ctx = (1, [e_load, e_obj] ++ t0 ++ [Event.tpm2_session_save s])) ∨
    (∃ handle ctx2 iv t0,
      env.tpm2_util_object_load ctx.context_arg = some handle ∧
      ctx2.key_context_object = handle ∧
      ctx2.mode = (if ctx.mode = TPM2_ALG_NULL then
          (if (env.Esys_ReadPublic handle).mode_sym = TPM2_ALG_NULL then TPM2_ALG_CFB
           else (env.Esys_ReadPublic handle).mode_sym)
        else ctx.mode) ∧
      (ctx.iv_in = none → iv = List.replicate 16 0) ∧
      (∀ path, ctx.iv_in = some path →
        env.files_get_file_size_path (some path) = some 16) ∧
      (∀ e ∈ t0, e.is_setup = true) ∧
      tpm2_tool_onrun env ctx =
        (if env.tpm2_session_save ctx2.auth.session = false then 1
          else if (encrypt_decrypt env ctx2 iv).1 = false then 1 else 0,
         [e_load, e_obj] ++ t0 ++ (encrypt_decrypt env ctx2 iv).2 ++
           [Event.tpm2_session_save ctx2.auth.session])) := by
  intro e_load e_obj
  have hout : ∀ (c : tpm_encrypt_decrypt_ctx) (rc : Int), tpm2_tool_onrun_out env c rc =
      (if env.tpm2_session_save c.auth.session = false then 1 else rc,
        [Event.tpm2_session_save c.auth.session]) := by
    intro c rc
    unfold tpm2_tool_onrun_out
    cases env.tpm2_session_save c.auth.session <;> simp
  unfold tpm2_tool_onrun
  simp only [hout]
  split
  · next hc => exact Or.inl ⟨hc, rfl⟩
  · next carg hc =>
    split
    · next hl => exact Or.inr (Or.inl ⟨hl, rfl⟩)
    · next data hl =>
      right; right
      split
      · next ho =>
        left
        refine ⟨ctx.auth.session, [], by simp, ?_⟩
        simp [e_load, e_obj]
      · next handle ho =>
        obtain ⟨⟨hak, ham, hai⟩, hat, -, -⟩ := onrun_auth_spec env
          { ctx with data := data, key_context_object := handle }
        simp only [] at hak ham hai
        generalize onrun_auth env { ctx with data := data, key_context_object := handle } = A
          at hak ham hai hat ⊢
        obtain ⟨hmt, hmm, -⟩ := onrun_mode_spec env A.2.1
        generalize onrun_mode env A.2.1 = M at hmt hmm ⊢
        split
        · left
          refine ⟨A.2.1.auth.session, A.2.2, hat, ?_⟩
          simp [e_load, e_obj]
        · split
          · left
            refine ⟨A.2.1.auth.session, A.2.2 ++ M.2, ?_, ?_⟩
            · intro e he
              rcases List.mem_append.1 he with h | h
              · exact hat e h
              · exact hmt e h
            · simp [e_load, e_obj]
          · next mode hmode =>
            obtain ⟨hvt, hvv, -⟩ := onrun_iv_spec env { A.2.1 with mode := mode }
            simp only [] at hvv
            generalize onrun_iv env { A.2.1 with mode := mode } = V at hvt hvv ⊢
            have hsetup : ∀ e ∈ A.2.2 ++ M.2 ++ V.2, e.is_setup = true := by
              intro e he
              rcases List.mem_append.1 he with h | h
              · rcases List.mem_append.1 h with h | h
                · exact hat e h
                · exact hmt e h
              · exact hvt e h
            split
            · left
              refine ⟨A.2.1.auth.session, A.2.2 ++ M.2 ++ V.2, hsetup, ?_⟩
              simp [e_load, e_obj]
            · next iv hiv =>
              right
              have hmode2 := hmm mode hmode
              have hiv2 := hvv iv hiv
              rw [hak, ham] at hmode2
              rw [hai] at hiv2
              refine ⟨handle, { A.2.1 with mode := mode }, iv, A.2.2 ++ M.2 ++ V.2, ho, hak,
                hmode2, hiv2.1, hiv2.2, hsetup, ?_⟩
              simp [e_load, e_obj]

theorem encrypt_decrypt_issues (env : Env) (ctx : tpm_encrypt_decrypt_ctx) (iv : List Nat)
    (hsh : env.tpm2_auth_util_get_shandle ctx.key_context_object ctx.auth ≠ ESYS_TR_NONE) :
    Event.Esys_EncryptDecrypt2 ctx.key_context_object
        (env.tpm2_auth_util_get_shandle ctx.key_context_object ctx.auth) ctx.data
        ctx.is_decrypt ctx.mode iv ∈ (encrypt_decrypt env ctx iv).2 := by
  have key := (encrypt_decrypt_cases env ctx iv).2 hsh
  simp only [] at key
  obtain ⟨h1, h2, h3, h4⟩ := key
  by_cases hcc : env.tpm2_error_get (env.Esys_EncryptDecrypt2 ctx.key_context_object
      (env.tpm2_auth_util_get_shandle ctx.key_context_object ctx.auth) ctx.data
      ctx.is_decrypt ctx.mode iv).rval = TPM2_RC_COMMAND_CODE
  · by_cases hr : (env.Esys_EncryptDecrypt ctx.key_context_object
        (env.tpm2_auth_util_get_shandle ctx.key_context_object ctx.auth) ctx.is_decrypt
        ctx.mode iv ctx.data).rval = TPM2_RC_SUCCESS
    · rw [(h1 hcc hr).1]
      simp
    · rw [h2 hcc hr]
      simp
  · by_cases hr : (env.Esys_EncryptDecrypt2 ctx.key_context_object
        (env.tpm2_auth_util_get_shandle ctx.key_context_object ctx.auth) ctx.data
        ctx.is_decrypt ctx.mode iv).rval = TPM2_RC_SUCCESS
    · rw [h4 hcc hr]
      simp
    · rw [h3 hcc hr]
      simp

theorem onrun_iv_reaches (env : Env) (ctx : tpm_encrypt_decrypt_ctx)
    (hiv : ∀ path, ctx.iv_in = some path →
      env.files_get_file_size_path (some path) = some 16 ∧
      env.files_load_bytes_from_path (some path) 16 ≠ none) :
    (onrun_iv env ctx).1 ≠ none := by
  unfold onrun_iv
  cases hi : ctx.iv_in with
  | none => simp
  | some path =>
    obtain ⟨hs, hl⟩ := hiv path hi
    obtain ⟨bytes, hl⟩ := Option.ne_none_iff_exists'.1 hl
    simp [hs, hl, TPM2_MAX_SYM_BLOCK_SIZE]

/-- The run reaches the operation when every step before it succeeds, and then
`Esys_EncryptDecrypt2` is called on the loaded key with the resolved mode. -/
theorem tpm2_tool_onrun_issues (env : Env) (ctx : tpm_encrypt_decrypt_ctx) (handle : Nat)
    (hc : ctx.context_arg ≠ none)
    (hl : env.files_load_bytes_from_buffer_or_file_or_stdin ctx.input_path
      TPM2_MAX_DIGEST_BUFFER ≠ none)
    (ho : env.tpm2_util_object_load ctx.context_arg = some handle)
    (hauth : ctx.flags.p = true →
      (env.tpm2_auth_util_from_optarg ctx.key_auth_str ctx.auth).1 = true)
    (hpub : ctx.mode = TPM2_ALG_NULL → (env.Esys_ReadPublic handle).rval = TPM2_RC_SUCCESS)
    (hiv : ∀ path, ctx.iv_in = some path →
      env.files_get_file_size_path (some path) = some 16 ∧
      env.files_load_bytes_from_path (some path) 16 ≠ none)
    (hsh : ∀ a, env.tpm2_auth_util_get_shandle handle a ≠ ESYS_TR_NONE) :
    ∃ sh d dec iv, Event.Esys_EncryptDecrypt2 handle sh d dec
        (if ctx.mode = TPM2_ALG_NULL then
          (if (env.Esys_ReadPublic handle).mode_sym = TPM2_ALG_NULL then TPM2_ALG_CFB
           else (env.Esys_ReadPublic handle).mode_sym)
         else ctx.mode) iv ∈ (tpm2_tool_onrun env ctx).2 := by
  have hout : ∀ (c : tpm_encrypt_decrypt_ctx) (rc : Int), (tpm2_tool_onrun_out env c rc).2 =
      [Event.tpm2_session_save c.auth.session] := by
    intro c rc
    unfold tpm2_tool_onrun_out
    cases env.tpm2_session_save c.auth.session <;> simp
  unfold tpm2_tool_onrun
  simp only []
  split
  · next h => exact absurd h hc
  split
  · next h => exact absurd h hl
  next data hl2 =>
  split
  · next h => rw [ho] at h; cases h
  next handle2 ho2 =>
  have hh : handle2 = handle := by
    rw [ho] at ho2
    exact (Option.some.inj ho2).symm
  subst hh
  obtain ⟨⟨hak, ham, hai⟩, -, hap0, hap1⟩ := onrun_auth_spec env
    { ctx with data := data, key_context_object := handle2 }
  have hA1 : (onrun_auth env { ctx with data := data, key_context_object := handle2 }).1
      = true := by
    cases hp : ctx.flags.p
    · rw [hap0 hp]
    · exact hap1 (hauth hp)
  simp only [] at hak ham hai
  generalize onrun_auth env { ctx with data := data, key_context_object := handle2 } = A
    at hak ham hai hA1 ⊢
  simp only [hA1]
  split
  · next h => exact absurd h (by simp)
  obtain ⟨-, hmm, hm1⟩ := onrun_mode_spec env A.2.1
  rw [ham, hak] at hmm hm1
  have hm1 := hm1 hpub
  generalize onrun_mode env A.2.1 = M at hmm hm1 ⊢
  split
  · next h => exact absurd h hm1
  next mode hmode =>
  have hmode2 := hmm mode hmode
  have hv1 := onrun_iv_reaches env { A.2.1 with mode := mode } (by
    intro path hp
    exact hiv path (by rw [← hai]; exact hp))
  generalize onrun_iv env { A.2.1 with mode := mode } = V at hv1 ⊢
  split
  · next h => exact absurd h hv1
  next iv hiv2 =>
  have hed := encrypt_decrypt_issues env { A.2.1 with mode := mode } iv (by
    show env.tpm2_auth_util_get_shandle A.2.1.key_context_object A.2.1.auth ≠ ESYS_TR_NONE
    rw [hak]
    exact hsh _)
  simp only [] at hed
  rw [hak] at hed
  rw [← hmode2]
  refine ⟨env.tpm2_auth_util_get_shandle handle2 A.2.1.auth, A.2.1.data, A.2.1.is_decrypt,
    iv, ?_⟩
  simp only [hout, hak]
  exact List.mem_append_left _ (List.mem_append_right _ hed)

/-- C3. The mode passed to the operation by `tpm2_tool_onrun`.  Every call of
the operation, in either variant, in any run carries: CFB when the context holds
no caller mode (`ctx.mode` is `TPM2_ALG_NULL`, its initial value) and the
recorded mode of the key object is NULL; the recorded mode X when there is no
caller mode and X is not NULL; the caller mode when the context holds one,
whatever the object records.  And the operation is in fact issued with that
mode: when the context argument is given and the input load, the Object Loader,
the authorization (under `-p`), `Esys_ReadPublic` (without a caller mode), the IV
load (with an IV source) and the authorization handle succeed, the trace holds a
call of `Esys_EncryptDecrypt2` on the loaded key with the mode of the case. -/
theorem mode_resolution (env : Env) (ctx : tpm_encrypt_decrypt_ctx) :
    (∀ e ∈ (tpm2_tool_onrun env ctx).2, ∀ k m iv, e.operation_args = some (k, m, iv) →
      (ctx.mode = TPM2_ALG_NULL → (env.Esys_ReadPublic k).mode_sym = TPM2_ALG_NULL →
        m = TPM2_ALG_CFB) ∧
      (ctx.mode = TPM2_ALG_NULL → (env.Esys_ReadPublic k).mode_sym ≠ TPM2_ALG_NULL →
        m = (env.Esys_ReadPublic k).mode_sym) ∧
      (ctx.mode ≠ TPM2_ALG_NULL → m = ctx.mode)) ∧
    (∀ handle,
      ctx.context_arg ≠ none →
      env.files_load_bytes_from_buffer_or_file_or_stdin ctx.input_path TPM2_MAX_DIGEST_BUFFER
        ≠ none →
      env.tpm2_util_object_load ctx.context_arg = some handle →
      (ctx.flags.p = true →
        (env.tpm2_auth_util_from_optarg ctx.key_auth_str ctx.auth).1 = true) →
      (ctx.mode = TPM2_ALG_NULL → (env.Esys_ReadPublic handle).rval = TPM2_RC_SUCCESS) →
      (∀ path, ctx.iv_in = some path →
        env.files_get_file_size_path (some path) = some 16 ∧
        env.files_load_bytes_from_path (some path) 16 ≠ none) →
      (∀ a, env.tpm2_auth_util_get_shandle handle a ≠ ESYS_TR_NONE) →
      (ctx.mode = TPM2_ALG_NULL → (env.Esys_ReadPublic handle).mode_sym = TPM2_ALG_NULL →
        ∃ sh d dec iv, Event.Esys_EncryptDecrypt2 handle sh d dec TPM2_ALG_CFB iv ∈
          (tpm2_tool_onrun env ctx).2) ∧
      (ctx.mode = TPM2_ALG_NULL → (env.Esys_ReadPublic handle).mode_sym ≠ TPM2_ALG_NULL →
        ∃ sh d dec iv, Event.Esys_EncryptDecrypt2 handle sh d dec
          (env.Esys_ReadPublic handle).mode_sym iv ∈ (tpm2_tool_onrun env ctx).2) ∧
      (ctx.mode ≠ TPM2_ALG_NULL →
        ∃ sh d dec iv, Event.Esys_EncryptDecrypt2 handle sh d dec ctx.mode iv ∈
          (tpm2_tool_onrun env ctx).2)) := by
  have hsetup : ∀ x : Event, x.is_setup = true → x.operation_args = none := by
    intro x hx
    cases x <;> simp_all [Event.is_setup, Event.operation_args]
  constructor
  · intro e he k m iv hop
    rcases tpm2_tool_onrun_cases env ctx with h | h | h | h
    · rw [h.2] at he
      simp at he
      subst he
      simp [Event.operation_args] at hop
    · rw [h.2] at he
      simp at he
      subst he
      simp [Event.operation_args] at hop
    · obtain ⟨s, t0, ht0, hr⟩ := h
      rw [hr] at he
      simp only [List.mem_append, List.mem_cons, List.mem_singleton, List.not_mem_nil,
        or_false] at he
      rcases he with ((he | he) | he) | he
      · subst he; simp [Event.operation_args] at hop
      · subst he; simp [Event.operation_args] at hop
      · rw [hsetup e (ht0 e he)] at hop; simp at hop
      · subst he; simp [Event.operation_args] at hop
    · obtain ⟨handle, ctx2, iv2, t0, ho, hk, hm, -, -, ht0, hr⟩ := h
      rw [hr] at he
      simp only [List.mem_append, List.mem_cons, List.mem_singleton, List.not_mem_nil,
        or_false] at he
      rcases he with ((((he | he) | he) | he) | he)
      · subst he; simp [Event.operation_args] at hop
      · subst he; simp [Event.operation_args] at hop
      · rw [hsetup e (ht0 e he)] at hop; simp at hop
      · obtain ⟨hk2, hm2, -⟩ := (encrypt_decrypt_trace env ctx2 iv2 e he).2 k m iv hop
        rw [hk] at hk2
        subst hk2
        rw [hm2, hm]
        refine ⟨fun h1 h2 => by simp [h1, h2], fun h1 h2 => by simp [h1, h2],
          fun h1 => by simp [h1]⟩
      · subst he; simp [Event.operation_args] at hop
  · intro handle hc hl ho hauth hpub hiv hsh
    have key := tpm2_tool_onrun_issues env ctx handle hc hl ho hauth hpub hiv hsh
    refine ⟨fun h1 h2 => ?_, fun h1 h2 => ?_, fun h1 => ?_⟩
    · simpa [h1, h2] using key
    · simpa [h1, h2] using key
    · simpa [h1] using key

/-- Three runs that reach the operation: without a caller mode on an object
without a recorded mode the mode passed is CFB; without a caller mode on an
object that records CBC it is CBC; after `-G cbc` on an object that records no
mode it is CBC. -/
theorem mode_resolution_witness :
    (∃ sh d dec iv, Event.Esys_EncryptDecrypt2 7 sh d dec TPM2_ALG_CFB iv ∈
      (tpm2_tool_onrun env_ok ctx_run).2) ∧
    (∃ sh d dec iv, Event.Esys_EncryptDecrypt2 7 sh d dec TPM2_ALG_CBC iv ∈
      (tpm2_tool_onrun env_cbc ctx_run).2) ∧
    (∃ sh d dec iv, Event.Esys_EncryptDecrypt2 7 sh d dec TPM2_ALG_CBC iv ∈
      (tpm2_tool_onrun env_ok
        (on_option (fun _ => TPM2_ALG_CBC) ctx_run 'G' (some "cbc")).2.1).2) ∧
    tpm2_tool_onrun env_cbc ctx_run =
      (0, [Event.files_load_bytes_from_buffer_or_file_or_stdin none 1024,
           Event.tpm2_util_object_load (some "0x81010001"),
           Event.Esys_ReadPublic 7,
           Event.LOG_WARN "Using a weak IV, try specifying an IV",
           Event.tpm2_auth_util_get_shandle 7 tool_auth.init,
           Event.Esys_EncryptDecrypt2 7 TPM2_RS_PW [1, 2, 3, 4, 5] 0 TPM2_ALG_CBC
             (List.replicate 16 0),
           Event.files_save_bytes_to_file (some "out.bin") [1, 2, 3, 4, 5],
           Event.tpm2_session_save none]) :=
  ⟨((mode_resolution env_ok ctx_run).2 7 (by decide) (by decide) rfl
      (fun h => absurd h (by decide)) (fun _ => rfl) (fun _ h => by cases h)
      (fun _ => (by decide : TPM2_RS_PW ≠ ESYS_TR_NONE))).1 rfl rfl,
   ((mode_resolution env_cbc ctx_run).2 7 (by decide) (by decide) rfl
      (fun h => absurd h (by decide)) (fun _ => rfl) (fun _ h => by cases h)
      (fun _ => (by decide : TPM2_RS_PW ≠ ESYS_TR_NONE))).2.1 rfl (by decide),
   ((mode_resolution env_ok (on_option (fun _ => TPM2_ALG_CBC) ctx_run 'G'
      (some "cbc")).2.1).2 7 (by decide) (by decide) rfl
      (fun h => absurd h (by decide)) (fun h => absurd h (by decide))
      (fun _ h => by cases h)
      (fun _ => (by decide : TPM2_RS_PW ≠ ESYS_TR_NONE))).2.2 (by decide),
   by decide⟩

/-- C4. When a context argument is given and the input data cannot be loaded,
`tpm2_tool_onrun` leaves through `return false`: its result is 0, the value
that reports success, and nothing but the load was attempted. -/
theorem onrun_input_load_failure_returns_zero (env : Env) (ctx : tpm_encrypt_decrypt_ctx)
    (hc : ctx.context_arg ≠ none)
    (hl : env.files_load_bytes_from_buffer_or_file_or_stdin ctx.input_path
      TPM2_MAX_DIGEST_BUFFER = none) :
    tpm2_tool_onrun env ctx =
      (0, [Event.files_load_bytes_from_buffer_or_file_or_stdin ctx.input_path
        TPM2_MAX_DIGEST_BUFFER]) := by
  unfold tpm2_tool_onrun
  cases h : ctx.context_arg with
  | none => exact absurd h hc
  | some c => simp [hl]

/-- The run `-c 0x81010001 -o out.bin` on an input that exceeds the buffer
returns 0. -/
theorem onrun_input_load_failure_returns_zero_witness :
    tpm2_tool_onrun env_load_fails ctx_run =
      (0, [Event.files_load_bytes_from_buffer_or_file_or_stdin none 1024]) :=
  onrun_input_load_failure_returns_zero env_load_fails ctx_run (by decide) rfl

theorem onrun_auth_events (env : Env) (ctx : tpm_encrypt_decrypt_ctx) :
    (∀ path, ¬ Event.files_get_file_size_path path ∈ (onrun_auth env ctx).2.2) ∧
    (ctx.flags.p = true →
      Event.tpm2_auth_util_from_optarg ctx.key_auth_str ∈ (onrun_auth env ctx).2.2) := by
  unfold onrun_auth
  cases hp : ctx.flags.p
  · simp
  · cases hr : (env.tpm2_auth_util_from_optarg ctx.key_auth_str ctx.auth).1
    · simp [hr]
    · simp [hr]

theorem onrun_mode_events (env : Env) (ctx : tpm_encrypt_decrypt_ctx) :
    (∀ path, ¬ Event.files_get_file_size_path path ∈ (onrun_mode env ctx).2) ∧
    (ctx.mode = TPM2_ALG_NULL →
      Event.Esys_ReadPublic ctx.key_context_object ∈ (onrun_mode env ctx).2) := by
  unfold onrun_mode readpub
  by_cases hm : ctx.mode = TPM2_ALG_NULL
  · by_cases h : (env.Esys_ReadPublic ctx.key_context_object).rval = TPM2_RC_SUCCESS
    · by_cases ho : (env.Esys_ReadPublic ctx.key_context_object).mode_sym = TPM2_ALG_NULL
      · simp [hm, h, ho]
      · simp [hm, h, ho]
    · simp [hm, h]
  · simp [hm]

/-- C5, as stated, fails: with an IV file of 10 bytes the driver has asked the
Object Loader, parsed the authorization and called `Esys_ReadPublic` before it
looks at the IV size. -/
theorem malformed_iv_after_object_load :
    ctx_iv.iv_in = some "iv.bin" ∧
    env_iv10.files_get_file_size_path (some "iv.bin") = some 10 ∧
    tpm2_tool_onrun env_iv10 ctx_iv =
      (1, [Event.files_load_bytes_from_buffer_or_file_or_stdin none 1024,
           Event.tpm2_util_object_load (some "0x81010001"),
           Event.tpm2_auth_util_from_optarg (some "pw"),
           Event.Esys_ReadPublic 7,
           Event.files_get_file_size_path (some "iv.bin"),
           Event.LOG_ERR "Iv should be 16 bytes, got %lu" [10],
           Event.tpm2_session_save none]) :=
  ⟨rfl, rfl, by decide⟩

/-- C5, amended. When the IV source has a size other than 16 bytes, no run of
`tpm2_tool_onrun` calls the encrypt/decrypt operation in either variant or asks
for its authorization handle; the result is non-zero whenever the input data
was loaded; and a run that queries the IV size then logs the size error, saves
the session and stops, having first loaded the input, asked the Object Loader,
parsed the authorization (under `-p`) and called `Esys_ReadPublic` (when no mode
was given). -/
theorem malformed_iv_aborts (env : Env) (ctx : tpm_encrypt_decrypt_ctx) (path : String)
    (n : Nat) (hi : ctx.iv_in = some path)
    (hs : env.files_get_file_size_path (some path) = some n) (hn : n ≠ 16) :
    (∀ e ∈ (tpm2_tool_onrun env ctx).2, e.is_operation = false ∧ e.is_get_shandle = false) ∧
    (env.files_load_bytes_from_buffer_or_file_or_stdin ctx.input_path TPM2_MAX_DIGEST_BUFFER
        ≠ none → (tpm2_tool_onrun env ctx).1 ≠ 0) ∧
    (Event.files_get_file_size_path (some path) ∈ (tpm2_tool_onrun env ctx).2 →
      ∃ t s, (tpm2_tool_onrun env ctx).2 =
        [Event.files_load_bytes_from_buffer_or_file_or_stdin ctx.input_path
          TPM2_MAX_DIGEST_BUFFER, Event.tpm2_util_object_load ctx.context_arg] ++ t ++
        [Event.files_get_file_size_path (some path),
         Event.LOG_ERR "Iv should be 16 bytes, got %lu" [n],
         Event.tpm2_session_save s] ∧
        (ctx.flags.p = true → Event.tpm2_auth_util_from_optarg ctx.key_auth_str ∈ t) ∧
        (ctx.mode = TPM2_ALG_NULL → ∃ handle, Event.Esys_ReadPublic handle ∈ t)) := by
  have h12 : (∀ e ∈ (tpm2_tool_onrun env ctx).2,
        e.is_operation = false ∧ e.is_get_shandle = false) ∧
      (env.files_load_bytes_from_buffer_or_file_or_stdin ctx.input_path TPM2_MAX_DIGEST_BUFFER
        ≠ none → (tpm2_tool_onrun env ctx).1 ≠ 0) := by
    rcases tpm2_tool_onrun_cases env ctx with h | h | h | h
    · rw [h.2]
      simp [Event.is_operation, Event.operation_args, Event.is_get_shandle]
    · rw [h.2]
      simp [Event.is_operation, Event.operation_args, Event.is_get_shandle, h.1]
    · obtain ⟨s, t0, ht0, hr⟩ := h
      rw [hr]
      refine ⟨?_, fun _ => by simp⟩
      intro e he
      simp only [List.mem_append, List.mem_cons, List.mem_singleton, List.not_mem_nil,
        or_false] at he
      rcases he with ((he | he) | he) | he
      · subst he; exact ⟨rfl, rfl⟩
      · subst he; exact ⟨rfl, rfl⟩
      · have := setup_not_operation e (ht0 e he)
        exact ⟨this.1, this.2.1⟩
      · subst he; exact ⟨rfl, rfl⟩
    · obtain ⟨handle, ctx2, iv2, t0, -, -, -, -, h16, -, -⟩ := h
      have := h16 path hi
      rw [hs] at this
      exact absurd (Option.some.inj this) hn
  refine ⟨h12.1, h12.2, ?_⟩
  have hout : ∀ (c : tpm_encrypt_decrypt_ctx) (rc : Int), tpm2_tool_onrun_out env c rc =
      (if env.tpm2_session_save c.auth.session = false then 1 else rc,
        [Event.tpm2_session_save c.auth.session]) := by
    intro c rc
    unfold tpm2_tool_onrun_out
    cases env.tpm2_session_save c.auth.session <;> simp
  unfold tpm2_tool_onrun
  simp only [hout]
  split
  · intro h; simp at h
  split
  · intro h; simp at h
  next data hl =>
  split
  · intro h; simp at h
  next handle ho =>
  obtain ⟨⟨hak, ham, hai⟩, -, -, -⟩ := onrun_auth_spec env
    { ctx with data := data, key_context_object := handle }
  obtain ⟨hae, hap⟩ := onrun_auth_events env
    { ctx with data := data, key_context_object := handle }
  simp only [] at hak ham hai hap
  generalize onrun_auth env { ctx with data := data, key_context_object := handle } = A
    at hak ham hai hae hap ⊢
  split
  · intro h
    simp [hae] at h
  obtain ⟨hme, hmp⟩ := onrun_mode_events env A.2.1
  rw [ham] at hmp
  generalize onrun_mode env A.2.1 = M at hme hmp ⊢
  split
  · intro h
    simp [hae, hme] at h
  next mode hmode =>
  have hV : onrun_iv env { A.2.1 with mode := mode } =
      (none, [Event.files_get_file_size_path (some path),
        Event.LOG_ERR "Iv should be 16 bytes, got %lu" [n]]) := by
    unfold onrun_iv
    simp only [hai, hi, hs]
    simp [hn, TPM2_MAX_SYM_BLOCK_SIZE]
  rw [hV]
  intro _
  refine ⟨A.2.2 ++ M.2, A.2.1.auth.session, by simp, ?_, ?_⟩
  · intro hp
    exact List.mem_append_left _ (hap hp)
  · intro hm
    exact ⟨_, List.mem_append_right _ (hmp hm)⟩

/-- The run `-c 0x81010001 -o out.bin -p pw -t iv.bin` with an IV file of 10 bytes
returns 1. -/
theorem malformed_iv_aborts_witness :
    env_iv10.files_get_file_size_path (some "iv.bin") = some 10 ∧
    (tpm2_tool_onrun env_iv10 ctx_iv).1 ≠ 0 :=
  ⟨rfl, (malformed_iv_aborts env_iv10 ctx_iv "iv.bin" 10 rfl rfl (by decide)).2.1 (by decide)⟩

/-- C6. Without an IV source, every call of the operation (either variant) is
handed an IV of exactly 16 bytes, all zero; and the missing IV does not abort:
when the context argument is given and every collaborator call succeeds, the
driver issues `Esys_EncryptDecrypt2` with that IV and returns 0. -/
theorem omitted_iv_is_zero (env : Env) (ctx : tpm_encrypt_decrypt_ctx)
    (hiv : ctx.iv_in = none) :
    (∀ e ∈ (tpm2_tool_onrun env ctx).2, ∀ k m iv, e.operation_args = some (k, m, iv) →
      iv.length = 16 ∧ (∀ b ∈ iv, b = 0) ∧ iv = List.replicate 16 0) ∧
    (ctx.context_arg ≠ none →
      env.files_load_bytes_from_buffer_or_file_or_stdin ctx.input_path TPM2_MAX_DIGEST_BUFFER
        ≠ none →
      env.tpm2_util_object_load ctx.context_arg ≠ none →
      (∀ s a, (env.tpm2_auth_util_from_optarg s a).1 = true) →
      (∀ h, (env.Esys_ReadPublic h).rval = TPM2_RC_SUCCESS) →
      (∀ h a, env.tpm2_auth_util_get_shandle h a ≠ ESYS_TR_NONE) →
      (∀ k sh d dec m iv, (env.Esys_EncryptDecrypt2 k sh d dec m iv).rval = TPM2_RC_SUCCESS) →
      env.tpm2_error_get TPM2_RC_SUCCESS ≠ TPM2_RC_COMMAND_CODE →
      (∀ path bytes, env.files_save_bytes_to_file path bytes = true) →
      (∀ s, env.tpm2_session_save s = true) →
      (tpm2_tool_onrun env ctx).1 = 0 ∧
      ∃ k sh d dec m, Event.Esys_EncryptDecrypt2 k sh d dec m (List.replicate 16 0) ∈
        (tpm2_tool_onrun env ctx).2) := by
  have hsetup : ∀ x : Event, x.is_setup = true → x.operation_args = none := by
    intro x hx
    cases x <;> simp_all [Event.is_setup, Event.operation_args]
  constructor
  · intro e he k m iv hop
    suffices h : iv = List.replicate 16 0 by
      subst h
      exact ⟨by simp, fun b hb => (List.mem_replicate.1 hb).2, rfl⟩
    rcases tpm2_tool_onrun_cases env ctx with h | h | h | h
    · rw [h.2] at he
      simp at he
      subst he
      simp [Event.operation_args] at hop
    · rw [h.2] at he
      simp at he
      subst he
      simp [Event.operation_args] at hop
    · obtain ⟨s, t0, ht0, hr⟩ := h
      rw [hr] at he
      simp only [List.mem_append, List.mem_cons, List.mem_singleton, List.not_mem_nil,
        or_false] at he
      rcases he with ((he | he) | he) | he
      · subst he; simp [Event.operation_args] at hop
      · subst he; simp [Event.operation_args] at hop
      · rw [hsetup e (ht0 e he)] at hop; simp at hop
      · subst he; simp [Event.operation_args] at hop
    · obtain ⟨handle, ctx2, iv2, t0, -, -, -, hz, -, ht0, hr⟩ := h
      rw [hr] at he
      simp only [List.mem_append, List.mem_cons, List.mem_singleton, List.not_mem_nil,
        or_false] at he
      rcases he with ((((he | he) | he) | he) | he)
      · subst he; simp [Event.operation_args] at hop
      · subst he; simp [Event.operation_args] at hop
      · rw [hsetup e (ht0 e he)] at hop; simp at hop
      · obtain ⟨-, -, hi2⟩ := (encrypt_decrypt_trace env ctx2 iv2 e he).2 k m iv hop
        rw [hi2, hz hiv]
      · subst he; simp [Event.operation_args] at hop
  · intro hc hl ho hauth hpub hsh h2 hcc hw hss
    obtain ⟨c, hc⟩ := Option.ne_none_iff_exists'.1 hc
    obtain ⟨data, hl⟩ := Option.ne_none_iff_exists'.1 hl
    obtain ⟨handle, ho⟩ := Option.ne_none_iff_exists'.1 ho
    have hout : ∀ (c : tpm_encrypt_decrypt_ctx) (rc : Int), tpm2_tool_onrun_out env c rc =
        (rc, [Event.tpm2_session_save c.auth.session]) := by
      intro c rc
      unfold tpm2_tool_onrun_out
      simp [hss]
    unfold tpm2_tool_onrun
    simp only [hout]
    split
    · next h => rw [hc] at h; cases h
    split
    · next h => rw [hl] at h; cases h
    next data2 hl2 =>
    split
    · next h => rw [ho] at h; cases h
    next handle2 ho2 =>
    obtain ⟨⟨hak, ham, hai⟩, -, -, ha1⟩ := onrun_auth_spec env
      { ctx with data := data2, key_context_object := handle2 }
    have ha1 := ha1 (hauth _ _)
    simp only [] at hak ham hai
    generalize onrun_auth env { ctx with data := data2, key_context_object := handle2 } = A
      at hak ham hai ha1 ⊢
    obtain ⟨-, -, hm1⟩ := onrun_mode_spec env A.2.1
    have hm1 := hm1 (fun _ => hpub _)
    generalize onrun_mode env A.2.1 = M at hm1 ⊢
    simp only [ha1]
    split
    · next h => exact absurd h (by simp)
    split
    · next h => exact absurd h hm1
    next mode hmode =>
    obtain ⟨-, -, hv1⟩ := onrun_iv_spec env { A.2.1 with mode := mode }
    have hv1 := hv1 (by simpa [hai] using hiv)
    generalize onrun_iv env { A.2.1 with mode := mode } = V at hv1 ⊢
    split
    · next h => rw [hv1] at h; cases h
    next iv hiv2 =>
    rw [hv1] at hiv2
    cases hiv2
    have hed := (encrypt_decrypt_cases env { A.2.1 with mode := mode }
      (List.replicate 16 0)).2 (hsh _ _)
    simp only [] at hed
    have hed4 := hed.2.2.2 (by rw [h2]; exact hcc) (h2 _ _ _ _ _ _)
    have hsv : ∀ o i, (encrypt_decrypt_save env { A.2.1 with mode := mode } o i).1 = true := by
      intro o i
      unfold encrypt_decrypt_save
      simp only [hw, if_true]
      split <;> rfl
    simp only [hed4, hsv]
    refine ⟨by simp, A.2.1.key_context_object,
      env.tpm2_auth_util_get_shandle A.2.1.key_context_object A.2.1.auth, A.2.1.data,
      A.2.1.is_decrypt, mode, ?_⟩
    simp

/-- The run `-c 0x81010001 -o out.bin`, without an IV source, on collaborators
that all succeed returns 0. -/
theorem omitted_iv_is_zero_witness :
    ctx_run.iv_in = none ∧ (tpm2_tool_onrun env_ok ctx_run).1 = 0 :=
  ⟨rfl, ((omitted_iv_is_zero env_ok ctx_run rfl).2 (by decide) (by decide) (by decide)
    (fun _ _ => rfl) (fun _ => rfl)
    (fun _ _ => (by decide : TPM2_RS_PW ≠ ESYS_TR_NONE)) (fun _ _ _ _ _ _ => rfl)
    (by decide) (fun _ _ => rfl) (fun _ => rfl)).1⟩

end EncryptDecrypt

namespace Duplicate

theorem duplicate_auth_spec (env : Env) (ctx : tpm_duplicate_ctx) :
    ((onrun_auth env ctx).2.1.flags = ctx.flags ∧
      (onrun_auth env ctx).2.1.key_type = ctx.key_type ∧
      (onrun_auth env ctx).2.1.sym_key_in = ctx.sym_key_in ∧
      (onrun_auth env ctx).2.1.sym_key_out = ctx.sym_key_out ∧
      (onrun_auth env ctx).2.1.enc_seed_out = ctx.enc_seed_out ∧
      (onrun_auth env ctx).2.1.duplicate_key_private_file = ctx.duplicate_key_private_file) ∧
    (∀ e ∈ (onrun_auth env ctx).2.2, e.is_setup = true) ∧
    ((ctx.flags.p = true → (env.tpm2_auth_util_from_optarg ctx.object_auth_str ctx.auth).1 = true) →
      (onrun_auth env ctx).1 = true) := by
  unfold onrun_auth
  cases hp : ctx.flags.p
  · simp
  · cases hr : (env.tpm2_auth_util_from_optarg ctx.object_auth_str ctx.auth).1
    · simp [hr, Event.is_setup]
    · simp [hr, Event.is_setup]

theorem check_options_setup (ctx : tpm_duplicate_ctx) :
    ∀ e ∈ (check_options ctx).2, e.is_setup = true := by
  have hstep : ∀ (c : Bool) (msg : String) (acc : Bool × List Event),
      (∀ e ∈ acc.2, e.is_setup = true) → ∀ e ∈ (check c msg acc).2, e.is_setup = true := by
    intro c msg acc hacc e he
    unfold check at he
    cases c
    · exact hacc e (by simpa using he)
    · simp only [if_true, List.mem_append, List.mem_singleton] at he
      rcases he with he | he
      · exact hacc e he
      · subst he; rfl
  unfold check_options
  simp only []
  refine hstep _ _ _ (hstep _ _ _ (hstep _ _ _ (hstep _ _ _ ?_)))
  split
  · exact hstep _ _ _ (hstep _ _ _ (hstep _ _ _ (by simp)))
  · exact hstep _ _ _ (hstep _ _ _ (by simp))

theorem set_key_algorithm_setup (alg : Nat) (obj : TPMT_SYM_DEF_OBJECT) :
    ∀ e ∈ (set_key_algorithm alg obj).2.2, e.is_setup = true := by
  unfold set_key_algorithm
  split
  · simp
  · split
    · simp
    · simp [Event.is_setup]

theorem onrun_in_key_spec (env : Env) (ctx : tpm_duplicate_ctx) :
    (∀ e ∈ (onrun_in_key env ctx).2, e.is_setup = true) ∧
    (∀ in_key, (onrun_in_key env ctx).1 = some in_key → ctx.flags.i = true →
      env.files_load_bytes_from_path ctx.sym_key_in 16 = some in_key ∧ in_key.length = 16) := by
  unfold onrun_in_key
  cases hi : ctx.flags.i
  · simp
  · cases hl : env.files_load_bytes_from_path ctx.sym_key_in 16 with
    | none => simp [Event.is_setup]
    | some key =>
      by_cases hk : key.length = 16
      · simp [Event.is_setup, hk]
      · simp [Event.is_setup, hk]

/-- The shape of every run of `tpm2_tool_onrun`: it stops before `do_duplicate`,
or `do_duplicate` fails for want of an authorization handle or on the status of
the exchange, or the exchange succeeds and `onrun_save` follows. -/
theorem duplicate_onrun_cases (env : Env) (ctx : tpm_duplicate_ctx) :
    (∃ t0, (∀ e ∈ t0, e.is_setup = true) ∧ tpm2_tool_onrun env ctx = (1, t0)) ∨
    (∃ ctx2 in_key t0,
      (∀ e ∈ t0, e.is_setup = true) ∧
      (ctx2.flags = ctx.flags ∧ ctx2.sym_key_out = ctx.sym_key_out ∧
        ctx2.enc_seed_out = ctx.enc_seed_out ∧
        ctx2.duplicate_key_private_file = ctx.duplicate_key_private_file) ∧
      (ctx.flags.i = true →
        env.files_load_bytes_from_path ctx.sym_key_in 16 = some in_key ∧ in_key.length = 16) ∧
      (set_key_algorithm ctx.key_type env.stack_sym_alg).1 = true ∧
      ((env.tpm2_auth_util_get_shandle ctx2.object_context ctx2.auth = ESYS_TR_NONE ∧
          tpm2_tool_onrun env ctx = (1, t0 ++
            [Event.tpm2_auth_util_get_shandle ctx2.object_context ctx2.auth,
             Event.LOG_ERR "Failed to get shandle" [],
             Event.tpm2_session_free ctx2.auth.session])) ∨
        (env.tpm2_auth_util_get_shandle ctx2.object_context ctx2.auth ≠ ESYS_TR_NONE ∧
          (env.Esys_Duplicate ctx2.object_context ctx2.new_parent_object_context
            (env.tpm2_auth_util_get_shandle ctx2.object_context ctx2.auth)
            (if ctx.flags.i then some in_key else none)
            (set_key_algorithm ctx.key_type env.stack_sym_alg).2.1 ctx.flags.o).rval
              ≠ TPM2_RC_SUCCESS ∧
          tpm2_tool_onrun env ctx = (1, t0 ++
            [Event.tpm2_auth_util_get_shandle ctx2.object_context ctx2.auth,
             Event.Esys_Duplicate ctx2.object_context ctx2.new_parent_object_context
              (env.tpm2_auth_util_get_shandle ctx2.object_context ctx2.auth)
              (if ctx.flags.i then some in_key else none)
              (set_key_algorithm ctx.key_type env.stack_sym_alg).2.1 ctx.flags.o,
             Event.LOG_PERR "Esys_Duplicate"
              (env.Esys_Duplicate ctx2.object_context ctx2.new_parent_object_context
                (env.tpm2_auth_util_get_shandle ctx2.object_context ctx2.auth)
                (if ctx.flags.i then some in_key else none)
                (set_key_algorithm ctx.key_type env.stack_sym_alg).2.1 ctx.flags.o).rval,
             Event.tpm2_session_free ctx2.auth.session])) ∨
        (env.tpm2_auth_util_get_shandle ctx2.object_context ctx2.auth ≠ ESYS_TR_NONE ∧
          (env.Esys_Duplicate ctx2.object_context ctx2.new_parent_object_context
            (env.tpm2_auth_util_get_shandle ctx2.object_context ctx2.auth)
            (if ctx.flags.i then some in_key else none)
            (set_key_algorithm ctx.key_type env.stack_sym_alg).2.1 ctx.flags.o).rval
              = TPM2_RC_SUCCESS ∧
          ∃ r, r = onrun_save env ctx2
            (if ctx.flags.o then
              (env.Esys_Duplicate ctx2.object_context ctx2.new_parent_object_context
                (env.tpm2_auth_util_get_shandle ctx2.object_context ctx2.auth)
                (if ctx.flags.i then some in_key else none)
                (set_key_algorithm ctx.key_type env.stack_sym_alg).2.1 ctx.flags.o).out_key
             else none)
            (env.Esys_Duplicate ctx2.object_context ctx2.new_parent_object_context
              (env.tpm2_auth_util_get_shandle ctx2.object_context ctx2.auth)
              (if ctx.flags.i then some in_key else none)
              (set_key_algorithm ctx.key_type env.stack_sym_alg).2.1 ctx.flags.o).duplicate
            (env.Esys_Duplicate ctx2.object_context ctx2.new_parent_object_context
              (env.tpm2_auth_util_get_shandle ctx2.object_context ctx2.auth)
              (if ctx.flags.i then some in_key else none)
              (set_key_algorithm ctx.key_type env.stack_sym_alg).2.1 ctx.flags.o).encrypted_seed ∧
          tpm2_tool_onrun env ctx = (r.1, t0 ++
            [Event.tpm2_auth_util_get_shandle ctx2.object_context ctx2.auth,
             Event.Esys_Duplicate ctx2.object_context ctx2.new_parent_object_context
              (env.tpm2_auth_util_get_shandle ctx2.object_context ctx2.auth)
              (if ctx.flags.i then some in_key else none)
              (set_key_algorithm ctx.key_type env.stack_sym_alg).2.1 ctx.flags.o] ++ r.2)))) := by
  have hco := check_options_setup ctx
  unfold tpm2_tool_onrun
  simp only []
  split
  · exact Or.inl ⟨_, hco, rfl⟩
  split
  · refine Or.inl ⟨_, ?_, rfl⟩
    intro e he
    rcases List.mem_append.1 he with h | h
    · exact hco e h
    · simp at h; subst h; rfl
  next obj hobj =>
  split
  · refine Or.inl ⟨_, ?_, rfl⟩
    intro e he
    simp only [List.mem_append, List.mem_singleton] at he
    rcases he with (h | h) | h
    · exact hco e h
    · subst h; rfl
    · subst h; rfl
  next parent hparent =>
  have hpre : ∀ e ∈ (check_options ctx).2 ++ [Event.tpm2_util_object_load ctx.object_arg] ++
      [Event.tpm2_util_object_load ctx.new_parent_object_arg], e.is_setup = true := by
    intro e he
    simp only [List.mem_append, List.mem_singleton] at he
    rcases he with (h | h) | h
    · exact hco e h
    · subst h; rfl
    · subst h; rfl
  generalize (check_options ctx).2 ++ [Event.tpm2_util_object_load ctx.object_arg] ++
      [Event.tpm2_util_object_load ctx.new_parent_object_arg] = pre at hpre ⊢
  obtain ⟨⟨haf, hak, hai, hao, has, har⟩, hat, -⟩ := duplicate_auth_spec env
    { ctx with object_context := obj, new_parent_object_context := parent }
  simp only [] at haf hak hai hao has har
  generalize onrun_auth env
    { ctx with object_context := obj, new_parent_object_context := parent } = A
    at haf hak hai hao has har hat ⊢
  have hpa : ∀ e ∈ pre ++ A.2.2, e.is_setup = true := by
    intro e he
    rcases List.mem_append.1 he with h | h
    · exact hpre e h
    · exact hat e h
  split
  · exact Or.inl ⟨_, hpa, rfl⟩
  rw [hak]
  have hks := set_key_algorithm_setup ctx.key_type env.stack_sym_alg
  generalize hK : set_key_algorithm ctx.key_type env.stack_sym_alg = K at hks ⊢
  have hpk : ∀ e ∈ pre ++ A.2.2 ++ K.2.2, e.is_setup = true := by
    intro e he
    rcases List.mem_append.1 he with h | h
    · exact hpa e h
    · exact hks e h
  split
  · exact Or.inl ⟨_, hpk, rfl⟩
  next hK1 =>
  obtain ⟨hlt, hlk⟩ := onrun_in_key_spec env A.2.1
  rw [haf, hai] at hlk
  generalize onrun_in_key env A.2.1 = L at hlt hlk ⊢
  have hpl : ∀ e ∈ pre ++ A.2.2 ++ K.2.2 ++ L.2, e.is_setup = true := by
    intro e he
    rcases List.mem_append.1 he with h | h
    · exact hpk e h
    · exact hlt e h
  split
  · exact Or.inl ⟨_, hpl, rfl⟩
  next in_key hin =>
  right
  refine ⟨A.2.1, in_key, pre ++ A.2.2 ++ K.2.2 ++ L.2, hpl, ⟨haf, hao, has, har⟩,
    hlk in_key hin, by simpa using hK1, ?_⟩
  rw [haf]
  unfold do_duplicate
  by_cases hsh : env.tpm2_auth_util_get_shandle A.2.1.object_context A.2.1.auth = ESYS_TR_NONE
  · left
    refine ⟨hsh, ?_⟩
    simp [hsh]
  · right
    by_cases hr : (env.Esys_Duplicate A.2.1.object_context A.2.1.new_parent_object_context
        (env.tpm2_auth_util_get_shandle A.2.1.object_context A.2.1.auth)
        (if ctx.flags.i then some in_key else none) K.2.1 ctx.flags.o).rval = TPM2_RC_SUCCESS
    · right
      refine ⟨hsh, hr, _, rfl, ?_⟩
      simp [hsh, hr]
    · left
      refine ⟨hsh, hr, ?_⟩
      simp [hsh, hr]

theorem onrun_save_spec (env : Env) (ctx : tpm_duplicate_ctx) (out_key : Option (List Nat))
    (duplicate outSymSeed : List Nat) :
    (∀ e ∈ (onrun_save env ctx out_key duplicate outSymSeed).2,
      e.is_duplicate = false ∧ e.is_get_shandle = false) ∧
    (∀ s, Event.tpm2_session_save s ∈ (onrun_save env ctx out_key duplicate outSymSeed).2 ↔
      s = ctx.auth.session) ∧
    ((onrun_save env ctx out_key duplicate outSymSeed).1 = 0 →
      ∀ x ∈ (onrun_save env ctx out_key duplicate outSymSeed).2.filter Event.is_write,
        write_result env x = true) ∧
    (env.tpm2_session_save ctx.auth.session = false →
      (onrun_save env ctx out_key duplicate outSymSeed).1 = 1 ∧
      (onrun_save env ctx out_key duplicate outSymSeed).2.filter Event.is_write = []) ∧
    (env.tpm2_session_save ctx.auth.session = true →
      (ctx.flags.o = true → out_key = none →
        (onrun_save env ctx out_key duplicate outSymSeed).1 = 1 ∧
        (onrun_save env ctx out_key duplicate outSymSeed).2.filter Event.is_write = []) ∧
      (ctx.flags.o = false →
        (onrun_save env ctx out_key duplicate outSymSeed).2.filter Event.is_write =
          attempted env [Event.files_save_encrypted_seed outSymSeed ctx.enc_seed_out,
            Event.files_save_private duplicate ctx.duplicate_key_private_file] ∧
        ((onrun_save env ctx out_key duplicate outSymSeed).1 = 0 ↔
          ∀ x ∈ [Event.files_save_encrypted_seed outSymSeed ctx.enc_seed_out,
            Event.files_save_private duplicate ctx.duplicate_key_private_file],
            write_result env x = true)) ∧
      (ctx.flags.o = true → ∀ key, out_key = some key →
        (onrun_save env ctx out_key duplicate outSymSeed).2.filter Event.is_write =
          attempted env [Event.files_save_bytes_to_file ctx.sym_key_out key,
            Event.files_save_encrypted_seed outSymSeed ctx.enc_seed_out,
            Event.files_save_private duplicate ctx.duplicate_key_private_file] ∧
        ((onrun_save env ctx out_key duplicate outSymSeed).1 = 0 ↔
          ∀ x ∈ [Event.files_save_bytes_to_file ctx.sym_key_out key,
            Event.files_save_encrypted_seed outSymSeed ctx.enc_seed_out,
            Event.files_save_private duplicate ctx.duplicate_key_private_file],
            write_result env x = true))) := by
  unfold onrun_save onrun_persist
  cases hs : env.tpm2_session_save ctx.auth.session
  · simp [Event.is_duplicate, Event.is_get_shandle, Event.is_write]
  · cases ho : ctx.flags.o
    · cases h1 : env.files_save_encrypted_seed outSymSeed ctx.enc_seed_out
      · simp [Event.is_duplicate, Event.is_get_shandle, Event.is_write, h1,
          attempted, write_result, List.filter]
      · cases h2 : env.files_save_private duplicate ctx.duplicate_key_private_file
        · simp [Event.is_duplicate, Event.is_get_shandle, Event.is_write, h1, h2,
            attempted, write_result, List.filter]
        · simp [Event.is_duplicate, Event.is_get_shandle, Event.is_write, h1, h2,
            attempted, write_result, List.filter]
    · cases out_key with
      | none => simp [Event.is_duplicate, Event.is_get_shandle, Event.is_write,
          List.filter]
      | some key =>
        cases h0 : env.files_save_bytes_to_file ctx.sym_key_out key
        · simp [Event.is_duplicate, Event.is_get_shandle, Event.is_write, h0,
            attempted, write_result, List.filter]
        · cases h1 : env.files_save_encrypted_seed outSymSeed ctx.enc_seed_out
          · simp [Event.is_duplicate, Event.is_get_shandle, Event.is_write, h0, h1,
              attempted, write_result, List.filter]
          · cases h2 : env.files_save_private duplicate ctx.duplicate_key_private_file
            · simp [Event.is_duplicate, Event.is_get_shandle, Event.is_write, h0, h1,
                h2, attempted, write_result, List.filter]
            · simp [Event.is_duplicate, Event.is_get_shandle, Event.is_write, h0, h1,
                h2, attempted, write_result, List.filter]

/-- C7. When an input key is supplied (`-i`): if the key file does not load as
a key of exactly 16 bytes, `tpm2_tool_onrun` returns non-zero and `Esys_Duplicate`
is never called; and every call of `Esys_Duplicate` carries an input key, the
loaded one, of exactly 16 bytes. -/
theorem in_key_exact_size (env : Env) (ctx : tpm_duplicate_ctx) (hi : ctx.flags.i = true) :
    ((∀ key, env.files_load_bytes_from_path ctx.sym_key_in 16 = some key → key.length ≠ 16) →
      (tpm2_tool_onrun env ctx).1 ≠ 0 ∧
      ∀ e ∈ (tpm2_tool_onrun env ctx).2, e.is_duplicate = false) ∧
    (∀ o p sh ik sym w, Event.Esys_Duplicate o p sh ik sym w ∈ (tpm2_tool_onrun env ctx).2 →
      ∃ key, ik = some key ∧ key.length = 16 ∧
        env.files_load_bytes_from_path ctx.sym_key_in 16 = some key) := by
  rcases duplicate_onrun_cases env ctx with ⟨t0, ht0, hr⟩ | ⟨ctx2, in_key, t0, ht0, -, hk, -, h⟩
  · rw [hr]
    refine ⟨fun _ => ⟨by simp, fun e he => (setup_not_operation e (ht0 e he)).2.2.2.1⟩, ?_⟩
    intro o p sh ik sym w he
    have := (setup_not_operation _ (ht0 _ he)).2.2.2.1
    simp [Event.is_duplicate] at this
  · obtain ⟨hload, hlen⟩ := hk hi
    refine ⟨fun hbad => absurd hlen (hbad in_key hload), ?_⟩
    intro o p sh ik sym w he
    have hnd : ¬ Event.Esys_Duplicate o p sh ik sym w ∈ t0 := by
      intro hmem
      have := (setup_not_operation _ (ht0 _ hmem)).2.2.2.1
      simp [Event.is_duplicate] at this
    rcases h with ⟨-, hr⟩ | ⟨-, -, hr⟩ | ⟨-, -, r, hrd, hr⟩
    · rw [hr] at he
      simp [hnd] at he
    · rw [hr] at he
      simp [hnd, hi] at he
      exact ⟨in_key, he.2.2.2.1, hlen, hload⟩
    · rw [hr] at he
      simp only [List.mem_append, List.mem_cons, List.mem_singleton, List.not_mem_nil,
        or_false, hnd, false_or] at he
      rcases he with (he | he) | he
      · cases he
      · simp [hi] at he
        exact ⟨in_key, he.2.2.2.1, hlen, hload⟩
      · have := ((onrun_save_spec env ctx2 _ _ _).1 _ (hrd ▸ he)).1
        simp [Event.is_duplicate] at this

/-- With the options of `ctx_in` and a key file of 10 bytes the driver returns a
non-zero result. -/
theorem in_key_exact_size_witness :
    ctx_in.flags.i = true ∧
    env_short_key.files_load_bytes_from_path ctx_in.sym_key_in 16 = some (List.replicate 10 0) ∧
    (tpm2_tool_onrun env_short_key ctx_in).1 ≠ 0 :=
  ⟨rfl, rfl, ((in_key_exact_size env_short_key ctx_in rfl).1 (by
    intro key h
    have h2 : List.replicate 10 0 = key := Option.some.inj h
    rw [← h2]
    decide)).1⟩

/-- C9. After a successful exchange (a call of `Esys_Duplicate` in the trace
whose status is success), with `writes` the write events of the run in order:
a result of 0 means that every attempted write succeeded; if an output key was
requested and the TPM returned none, or if the session could not be saved, the
result is non-zero and nothing is written; otherwise `writes` is the list
key-out (only under `-o`), encrypted seed, duplicate private blob, worked
through in that order and abandoned at the first write that fails, and the
result is 0 exactly when all of them succeeded. -/
theorem persistence_order (env : Env) (ctx : tpm_duplicate_ctx) (o p sh : Nat)
    (ik : Option (List Nat)) (sym : TPMT_SYM_DEF_OBJECT) (w : Bool)
    (hex : Event.Esys_Duplicate o p sh ik sym w ∈ (tpm2_tool_onrun env ctx).2)
    (hok : (env.Esys_Duplicate o p sh ik sym w).rval = TPM2_RC_SUCCESS) :
    ((tpm2_tool_onrun env ctx).1 = 0 →
      ∀ x ∈ (tpm2_tool_onrun env ctx).2.filter Event.is_write, write_result env x = true) ∧
    (ctx.flags.o = true → (env.Esys_Duplicate o p sh ik sym w).out_key = none →
      (tpm2_tool_onrun env ctx).1 ≠ 0 ∧
      (tpm2_tool_onrun env ctx).2.filter Event.is_write = []) ∧
    ((∃ s, Event.tpm2_session_save s ∈ (tpm2_tool_onrun env ctx).2 ∧
        env.tpm2_session_save s = false) →
      (tpm2_tool_onrun env ctx).1 ≠ 0 ∧
      (tpm2_tool_onrun env ctx).2.filter Event.is_write = []) ∧
    ((∀ s, Event.tpm2_session_save s ∈ (tpm2_tool_onrun env ctx).2 →
        env.tpm2_session_save s = true) →
      (ctx.flags.o = false →
        (tpm2_tool_onrun env ctx).2.filter Event.is_write =
          attempted env
            [Event.files_save_encrypted_seed
              (env.Esys_Duplicate o p sh ik sym w).encrypted_seed ctx.enc_seed_out,
             Event.files_save_private
              (env.Esys_Duplicate o p sh ik sym w).duplicate ctx.duplicate_key_private_file] ∧
        ((tpm2_tool_onrun env ctx).1 = 0 ↔
          ∀ x ∈ [Event.files_save_encrypted_seed
              (env.Esys_Duplicate o p sh ik sym w).encrypted_seed ctx.enc_seed_out,
             Event.files_save_private
              (env.Esys_Duplicate o p sh ik sym w).duplicate ctx.duplicate_key_private_file],
            write_result env x = true)) ∧
      (ctx.flags.o = true → ∀ key, (env.Esys_Duplicate o p sh ik sym w).out_key = some key →
        (tpm2_tool_onrun env ctx).2.filter Event.is_write =
          attempted env
            [Event.files_save_bytes_to_file ctx.sym_key_out key,
             Event.files_save_encrypted_seed
              (env.Esys_Duplicate o p sh ik sym w).encrypted_seed ctx.enc_seed_out,
             Event.files_save_private
              (env.Esys_Duplicate o p sh ik sym w).duplicate ctx.duplicate_key_private_file] ∧
        ((tpm2_tool_onrun env ctx).1 = 0 ↔
          ∀ x ∈ [Event.files_save_bytes_to_file ctx.sym_key_out key,
             Event.files_save_encrypted_seed
              (env.Esys_Duplicate o p sh ik sym w).encrypted_seed ctx.enc_seed_out,
             Event.files_save_private
              (env.Esys_Duplicate o p sh ik sym w).duplicate ctx.duplicate_key_private_file],
            write_result env x = true))) := by
  rcases duplicate_onrun_cases env ctx with ⟨t0, ht0, hr⟩ |
    ⟨ctx2, in_key, t0, ht0, ⟨hf, hko, hse, hpr⟩, -, -, h⟩
  · rw [hr] at hex
    have := (setup_not_operation _ (ht0 _ hex)).2.2.2.1
    simp [Event.is_duplicate] at this
  · have hnd : ¬ Event.Esys_Duplicate o p sh ik sym w ∈ t0 := by
      intro hmem
      have := (setup_not_operation _ (ht0 _ hmem)).2.2.2.1
      simp [Event.is_duplicate] at this
    rcases h with ⟨-, hr⟩ | ⟨-, hbad, hr⟩ | ⟨-, -, r, hrd, hr⟩
    · rw [hr] at hex
      simp [hnd] at hex
    · rw [hr] at hex
      simp [hnd] at hex
      obtain ⟨h1, h2, h3, h4, h5, h6⟩ := hex
      subst h1 h2 h3 h4 h5 h6
      exact absurd hok hbad
    · have hex2 := hex
      rw [hr] at hex2
      simp only [List.mem_append, List.mem_cons, List.mem_singleton, List.not_mem_nil,
        or_false, hnd, false_or] at hex2
      have hspec := onrun_save_spec env ctx2
        (if ctx.flags.o then
          (env.Esys_Duplicate ctx2.object_context ctx2.new_parent_object_context
            (env.tpm2_auth_util_get_shandle ctx2.object_context ctx2.auth)
            (if ctx.flags.i then some in_key else none)
            (set_key_algorithm ctx.key_type env.stack_sym_alg).2.1 ctx.flags.o).out_key
         else none)
        (env.Esys_Duplicate ctx2.object_context ctx2.new_parent_object_context
          (env.tpm2_auth_util_get_shandle ctx2.object_context ctx2.auth)
          (if ctx.flags.i then some in_key else none)
          (set_key_algorithm ctx.key_type env.stack_sym_alg).2.1 ctx.flags.o).duplicate
        (env.Esys_Duplicate ctx2.object_context ctx2.new_parent_object_context
          (env.tpm2_auth_util_get_shandle ctx2.object_context ctx2.auth)
          (if ctx.flags.i then some in_key else none)
          (set_key_algorithm ctx.key_type env.stack_sym_alg).2.1 ctx.flags.o).encrypted_seed
      rw [← hrd] at hspec
      obtain ⟨hsd, hss, hs0, hsf, hst⟩ := hspec
      have hargs : Event.Esys_Duplicate o p sh ik sym w =
          Event.Esys_Duplicate ctx2.object_context ctx2.new_parent_object_context
            (env.tpm2_auth_util_get_shandle ctx2.object_context ctx2.auth)
            (if ctx.flags.i then some in_key else none)
            (set_key_algorithm ctx.key_type env.stack_sym_alg).2.1 ctx.flags.o := by
        rcases hex2 with (he | he) | he
        · cases he
        · exact he
        · have := (hsd _ he).1
          simp [Event.is_duplicate] at this
      simp only [Event.Esys_Duplicate.injEq] at hargs
      obtain ⟨h1, h2, h3, h4, h5, h6⟩ := hargs
      subst h1 h2 h3 h4 h5 h6
      have hw : (tpm2_tool_onrun env ctx).2.filter Event.is_write =
          r.2.filter Event.is_write := by
        rw [hr]
        simp only [List.filter_append]
        rw [List.filter_eq_nil_iff.2 (fun a ha => by
          simp [(setup_not_operation a (ht0 a ha)).2.2.2.2])]
        simp [List.filter, Event.is_write]
      have hrc : (tpm2_tool_onrun env ctx).1 = r.1 := by rw [hr]
      have hsave : ∀ s, Event.tpm2_session_save s ∈ (tpm2_tool_onrun env ctx).2 ↔
          s = ctx2.auth.session := by
        intro s
        rw [hr, ← hss s]
        have hns : ¬ Event.tpm2_session_save s ∈ t0 := by
          intro hmem
          have := (setup_not_operation _ (ht0 _ hmem)).2.2.1
          simp [Event.is_session_save] at this
        simp [hns]
      rw [hw, hrc]
      rw [hf, hko, hse, hpr] at hst
      refine ⟨hs0, ?_, ?_, ?_⟩
      · intro ho hnone
        cases hsv : env.tpm2_session_save ctx2.auth.session
        · have := hsf hsv
          exact ⟨by rw [this.1]; decide, this.2⟩
        · have := (hst hsv).1 ho (by rw [if_pos ho]; exact hnone)
          exact ⟨by rw [this.1]; decide, this.2⟩
      · rintro ⟨s, hs, hfalse⟩
        rw [(hsave s).1 hs] at hfalse
        have := hsf hfalse
        exact ⟨by rw [this.1]; decide, this.2⟩
      · intro hall
        have hsv := hall _ ((hsave _).2 rfl)
        refine ⟨(hst hsv).2.1, ?_⟩
        intro ho key hkey
        exact (hst hsv).2.2 ho key (by rw [if_pos ho]; exact hkey)

/-- With the options of `ctx_out` and an encrypted seed that cannot be written,
the exchange succeeds and the writes are the outgoing key and the seed. -/
theorem persistence_order_witness :
    Event.Esys_Duplicate 1 2 TPM2_RS_PW none
        { algorithm := TPM2_ALG_AES, keyBits := 128, mode := TPM2_ALG_CFB } true ∈
      (tpm2_tool_onrun env_seed_fails ctx_out).2 ∧
    (tpm2_tool_onrun env_seed_fails ctx_out).2.filter Event.is_write =
      attempted env_seed_fails
        [Event.files_save_bytes_to_file (some "key.out") (List.replicate 16 5),
         Event.files_save_encrypted_seed [3, 4] (some "dup.seed"),
         Event.files_save_private [1, 2] (some "dup.priv")] ∧
    attempted env_seed_fails
        [Event.files_save_bytes_to_file (some "key.out") (List.replicate 16 5),
         Event.files_save_encrypted_seed [3, 4] (some "dup.seed"),
         Event.files_save_private [1, 2] (some "dup.priv")] =
      [Event.files_save_bytes_to_file (some "key.out") (List.replicate 16 5),
       Event.files_save_encrypted_seed [3, 4] (some "dup.seed")] :=
  ⟨by decide,
   ((((persistence_order env_seed_fails ctx_out 1 2 TPM2_RS_PW none
      { algorithm := TPM2_ALG_AES, keyBits := 128, mode := TPM2_ALG_CFB } true
      (by decide) rfl).2.2.2 (fun _ _ => rfl)).2 rfl (List.replicate 16 5) rfl).1),
   by decide⟩

theorem check_options_no_args (ctx : tpm_duplicate_ctx) (fmt : String) (a : Nat) :
    ¬ Event.LOG_ERR fmt [a] ∈ (check_options ctx).2 := by
  have hstep : ∀ (c : Bool) (msg : String) (acc : Bool × List Event),
      (¬ Event.LOG_ERR fmt [a] ∈ acc.2) → ¬ Event.LOG_ERR fmt [a] ∈ (check c msg acc).2 := by
    intro c msg acc hacc he
    unfold check at he
    cases c
    · exact hacc (by simpa using he)
    · simp only [if_true, List.mem_append, List.mem_singleton] at he
      rcases he with he | he
      · exact hacc he
      · simp at he
  unfold check_options
  simp only []
  refine hstep _ _ _ (hstep _ _ _ (hstep _ _ _ (hstep _ _ _ ?_)))
  split
  · exact hstep _ _ _ (hstep _ _ _ (hstep _ _ _ (by simp)))
  · exact hstep _ _ _ (hstep _ _ _ (by simp))

theorem onrun_auth_fst (env : Env) (ctx : tpm_duplicate_ctx) :
    ((onrun_auth env ctx).1 = true ↔
      (ctx.flags.p = true →
        (env.tpm2_auth_util_from_optarg ctx.object_auth_str ctx.auth).1 = true)) ∧
    (∀ fmt a, ¬ Event.LOG_ERR fmt [a] ∈ (onrun_auth env ctx).2.2) := by
  unfold onrun_auth
  cases hp : ctx.flags.p
  · simp
  · cases hr : (env.tpm2_auth_util_from_optarg ctx.object_auth_str ctx.auth).1
    · simp [hr]
    · simp [hr]

/-- C10, as stated, fails: with the inner algorithm `camellia` the driver asks
the Object Loader for both handles before it reports the unsupported algorithm. -/
theorem camellia_rejected_after_object_load :
    ctx_camellia.key_type = TPM2_ALG_CAMELLIA ∧
    TPM2_ALG_CAMELLIA ≠ TPM2_ALG_AES ∧ TPM2_ALG_CAMELLIA ≠ TPM2_ALG_NULL ∧
    tpm2_tool_onrun env_ok ctx_camellia =
      (1, [Event.tpm2_util_object_load (some "0x81010001"),
           Event.tpm2_util_object_load (some "0x81010002"),
           Event.LOG_ERR "The algorithm type input(0x%x) is not supported!" [0x26]]) :=
  ⟨rfl, by decide, by decide, by decide⟩

/-- C10, amended. For an inner algorithm other than AES and NULL the driver
returns non-zero and never asks for the authorization handle, calls
`Esys_Duplicate`, saves the session or writes a file; the unsupported-algorithm
error is reported exactly when the option validation, both Object Loader calls
and the authorization succeeded, and then both Object Loader calls precede it
in the trace.  For AES the symmetric definition passed to `Esys_Duplicate` is
AES, 128 key bits, CFB; for NULL its algorithm is NULL. -/
theorem unsupported_algorithm (env : Env) (ctx : tpm_duplicate_ctx) :
    (ctx.key_type ≠ TPM2_ALG_AES → ctx.key_type ≠ TPM2_ALG_NULL →
      (tpm2_tool_onrun env ctx).1 ≠ 0 ∧
      (∀ e ∈ (tpm2_tool_onrun env ctx).2,
        e.is_get_shandle = false ∧ e.is_duplicate = false ∧ e.is_session_save = false ∧
        e.is_write = false) ∧
      (Event.LOG_ERR "The algorithm type input(0x%x) is not supported!" [ctx.key_type] ∈
          (tpm2_tool_onrun env ctx).2 ↔
        ((check_options ctx).1 = true ∧
          env.tpm2_util_object_load ctx.object_arg ≠ none ∧
          env.tpm2_util_object_load ctx.new_parent_object_arg ≠ none ∧
          (ctx.flags.p = true →
            (env.tpm2_auth_util_from_optarg ctx.object_auth_str ctx.auth).1 = true))) ∧
      (Event.LOG_ERR "The algorithm type input(0x%x) is not supported!" [ctx.key_type] ∈
          (tpm2_tool_onrun env ctx).2 →
        ∃ t1 t2, (tpm2_tool_onrun env ctx).2 =
          t1 ++ [Event.tpm2_util_object_load ctx.object_arg,
                 Event.tpm2_util_object_load ctx.new_parent_object_arg] ++ t2 ++
            [Event.LOG_ERR "The algorithm type input(0x%x) is not supported!"
              [ctx.key_type]])) ∧
    (ctx.key_type = TPM2_ALG_AES → ∀ o p sh ik sym w,
      Event.Esys_Duplicate o p sh ik sym w ∈ (tpm2_tool_onrun env ctx).2 →
        sym = { algorithm := TPM2_ALG_AES, keyBits := 128, mode := TPM2_ALG_CFB }) ∧
    (ctx.key_type = TPM2_ALG_NULL → ∀ o p sh ik sym w,
      Event.Esys_Duplicate o p sh ik sym w ∈ (tpm2_tool_onrun env ctx).2 →
        sym.algorithm = TPM2_ALG_NULL) := by
  have hsym : ∀ o p sh ik sym w,
      Event.Esys_Duplicate o p sh ik sym w ∈ (tpm2_tool_onrun env ctx).2 →
        sym = (set_key_algorithm ctx.key_type env.stack_sym_alg).2.1 := by
    intro o p sh ik sym w he
    rcases duplicate_onrun_cases env ctx with ⟨t0, ht0, hr⟩ | ⟨ctx2, in_key, t0, ht0, -, -, -, h⟩
    · rw [hr] at he
      have := (setup_not_operation _ (ht0 _ he)).2.2.2.1
      simp [Event.is_duplicate] at this
    · have hnd : ¬ Event.Esys_Duplicate o p sh ik sym w ∈ t0 := by
        intro hmem
        have := (setup_not_operation _ (ht0 _ hmem)).2.2.2.1
        simp [Event.is_duplicate] at this
      rcases h with ⟨-, hr⟩ | ⟨-, -, hr⟩ | ⟨-, -, r, hrd, hr⟩
      · rw [hr] at he
        simp [hnd] at he
      · rw [hr] at he
        simp [hnd] at he
        exact he.2.2.2.2.1
      · rw [hr] at he
        simp only [List.mem_append, List.mem_cons, List.mem_singleton, List.not_mem_nil,
          or_false, hnd, false_or] at he
        rcases he with (he | he) | he
        · cases he
        · simp at he
          exact he.2.2.2.2.1
        · have := ((onrun_save_spec env ctx2 _ _ _).1 _ (hrd ▸ he)).1
          simp [Event.is_duplicate] at this
  refine ⟨?_, ?_, ?_⟩
  · intro h1 h2
    have hK : set_key_algorithm ctx.key_type env.stack_sym_alg = (false, env.stack_sym_alg,
        [Event.LOG_ERR "The algorithm type input(0x%x) is not supported!" [ctx.key_type]]) := by
      unfold set_key_algorithm
      simp [h1, h2]
    have hcls : ∀ t : List Event, (∀ e ∈ t, e.is_setup = true) → ∀ e ∈ t,
        e.is_get_shandle = false ∧ e.is_duplicate = false ∧ e.is_session_save = false ∧
        e.is_write = false := by
      intro t ht e he
      have := setup_not_operation e (ht e he)
      exact ⟨this.2.1, this.2.2.2.1, this.2.2.1, this.2.2.2.2⟩
    have hco := check_options_setup ctx
    have hcn := check_options_no_args ctx "The algorithm type input(0x%x) is not supported!"
      ctx.key_type
    unfold tpm2_tool_onrun
    simp only []
    split
    · next hc =>
      refine ⟨by simp, hcls _ hco, ?_, fun h => absurd h hcn⟩
      simp [hcn, hc]
    next hc =>
    split
    · next hobj =>
      have hs : ∀ e ∈ (check_options ctx).2 ++ [Event.tpm2_util_object_load ctx.object_arg],
          e.is_setup = true := by
        intro e he
        rcases List.mem_append.1 he with h | h
        · exact hco e h
        · simp at h; subst h; rfl
      refine ⟨by simp, hcls _ hs, ?_, fun h => ?_⟩
      · simp [hcn, hobj]
      · simp [hcn] at h
    next obj hobj =>
    split
    · next hpar =>
      have hs : ∀ e ∈ (check_options ctx).2 ++ [Event.tpm2_util_object_load ctx.object_arg] ++
          [Event.tpm2_util_object_load ctx.new_parent_object_arg], e.is_setup = true := by
        intro e he
        simp only [List.mem_append, List.mem_singleton] at he
        rcases he with (h | h) | h
        · exact hco e h
        · subst h; rfl
        · subst h; rfl
      refine ⟨by simp, hcls _ hs, ?_, fun h => ?_⟩
      · simp [hcn, hpar]
      · simp [hcn] at h
    next parent hpar =>
    have hs : ∀ e ∈ (check_options ctx).2 ++ [Event.tpm2_util_object_load ctx.object_arg] ++
        [Event.tpm2_util_object_load ctx.new_parent_object_arg], e.is_setup = true := by
      intro e he
      simp only [List.mem_append, List.mem_singleton] at he
      rcases he with (h | h) | h
      · exact hco e h
      · subst h; rfl
      · subst h; rfl
    obtain ⟨⟨-, hak, -, -, -, -⟩, hat, -⟩ := duplicate_auth_spec env
      { ctx with object_context := obj, new_parent_object_context := parent }
    obtain ⟨ha1, han⟩ := onrun_auth_fst env
      { ctx with object_context := obj, new_parent_object_context := parent }
    simp only [] at hak ha1
    generalize onrun_auth env
      { ctx with object_context := obj, new_parent_object_context := parent } = A
      at hak hat ha1 han ⊢
    have hsa : ∀ e ∈ (check_options ctx).2 ++ [Event.tpm2_util_object_load ctx.object_arg] ++
        [Event.tpm2_util_object_load ctx.new_parent_object_arg] ++ A.2.2,
        e.is_setup = true := by
      intro e he
      rcases List.mem_append.1 he with h | h
      · exact hs e h
      · exact hat e h
    have hc2 : (check_options ctx).1 = true := by simpa using hc
    split
    · next hA =>
      refine ⟨by simp, hcls _ hsa, ?_, fun h => ?_⟩
      · have hA2 : ¬ (ctx.flags.p = true →
            (env.tpm2_auth_util_from_optarg ctx.object_auth_str ctx.auth).1 = true) := by
          rw [← ha1, hA]
          simp
        simp [hcn, han, hobj, hpar, hA2]
      · simp [hcn, han] at h
    next hA =>
    have hA1 : A.1 = true := by simpa using hA
    rw [hak, hK]
    simp only [if_true]
    refine ⟨by simp, ?_, ?_, fun _ => ⟨(check_options ctx).2, A.2.2, by simp⟩⟩
    · intro e he
      rcases List.mem_append.1 he with h | h
      · exact hcls _ hsa e h
      · simp at h; subst h; exact ⟨rfl, rfl, rfl, rfl⟩
    · simp [hc2, hobj, hpar]
      exact ha1.1 hA1
  · intro hA o p sh ik sym w he
    rw [hsym o p sh ik sym w he, hA]
    rfl
  · intro hN o p sh ik sym w he
    rw [hsym o p sh ik sym w he, hN]
    rfl

/-- The run of `ctx_camellia` reports the unsupported algorithm, after both
Object Loader calls, and the run of `ctx_in` passes AES, 128, CFB. -/
theorem unsupported_algorithm_witness :
    (ctx_camellia.key_type ≠ TPM2_ALG_AES ∧ ctx_camellia.key_type ≠ TPM2_ALG_NULL ∧
      (tpm2_tool_onrun env_ok ctx_camellia).1 ≠ 0) ∧
    (ctx_in.key_type = TPM2_ALG_AES ∧
      Event.Esys_Duplicate 1 2 TPM2_RS_PW (some (List.replicate 16 0))
        { algorithm := TPM2_ALG_AES, keyBits := 128, mode := TPM2_ALG_CFB } false ∈
        (tpm2_tool_onrun env_ok ctx_in).2) :=
  ⟨⟨by decide, by decide,
    ((unsupported_algorithm env_ok ctx_camellia).1 (by decide) (by decide)).1⟩,
   ⟨rfl, by decide⟩⟩

end Duplicate

namespace EncryptDecrypt

theorem takeWhile_dropWhile_colon (cs : List Char) (h : ':' ∈ cs) :
    ':' ∉ cs.takeWhile (fun c => c != ':') ∧
    cs.takeWhile (fun c => c != ':') ++ ':' :: (cs.dropWhile (fun c => c != ':')).drop 1 = cs := by
  induction cs with
  | nil => simp at h
  | cons a as ih =>
    by_cases ha : a = ':'
    · subst ha
      simp [List.takeWhile, List.dropWhile]
    · have hmem : ':' ∈ as := by
        rcases List.mem_cons.1 h with h1 | h1
        · exact absurd h1.symm ha
        · exact h1
      obtain ⟨h1, h2⟩ := ih hmem
      have hne : (a != ':') = true := by simpa using ha
      simp only [List.takeWhile, List.dropWhile, hne, List.cons_append, List.mem_cons, not_or]
      exact ⟨⟨fun h => ha h.symm, h1⟩, by rw [h2]⟩

/-- C11. The split of the IV option by `parse_iv`, as `on_option` applies it to
`-t`: for a value without a colon the IV input is the value and the IV output
is left as it was (unset on the initial context); for a value with a colon the
IV input is the text before the first colon, so it holds no colon, the IV output
is all the text after that colon, and input, colon, output put together give
the value back.  No other member of the context changes. -/
theorem parse_iv_split (ctx : tpm_encrypt_decrypt_ctx) (v : String) :
    (':' ∉ v.toList →
      (parse_iv ctx v).iv_in = some v ∧ (parse_iv ctx v).iv_out = ctx.iv_out ∧
      (ctx.iv_out = none → (parse_iv ctx v).iv_out = none)) ∧
    (':' ∈ v.toList →
      ∃ i o, (parse_iv ctx v).iv_in = some i ∧ (parse_iv ctx v).iv_out = some o ∧
        ':' ∉ i.toList ∧ i ++ ":" ++ o = v ∧
        i = String.mk (v.toList.takeWhile (fun c => c != ':')) ∧
        o = String.mk ((v.toList.dropWhile (fun c => c != ':')).drop 1)) ∧
    (∀ strtoalg, on_option strtoalg ctx 't' (some v) = (true, parse_iv ctx v, [])) ∧
    (parse_iv ctx v = { ctx with iv_in := (parse_iv ctx v).iv_in,
                                 iv_out := (parse_iv ctx v).iv_out }) := by
  have hno : ':' ∉ v.toList → parse_iv ctx v = { ctx with iv_in := some v } :=
    fun h => if_neg h
  have hyes : ':' ∈ v.toList → parse_iv ctx v =
      { ctx with iv_in := some (String.mk (v.toList.takeWhile (fun c => c != ':')))
                 iv_out := some (String.mk ((v.toList.dropWhile (fun c => c != ':')).drop 1)) } :=
    fun h => if_pos h
  refine ⟨?_, ?_, ?_, ?_⟩
  · intro h
    rw [hno h]
    exact ⟨rfl, rfl, fun h2 => h2⟩
  · intro h
    obtain ⟨h1, h2⟩ := takeWhile_dropWhile_colon v.toList h
    refine ⟨String.mk (v.toList.takeWhile (fun c => c != ':')),
      String.mk ((v.toList.dropWhile (fun c => c != ':')).drop 1), ?_, ?_, h1, ?_, rfl, rfl⟩
    · rw [hyes h]
    · rw [hyes h]
    · apply String.ext
      simp only [String.data_append, List.append_assoc]
      exact h2
  · intro strtoalg
    unfold on_option
    simp
  · by_cases h : ':' ∈ v.toList
    · rw [hyes h]
    · rw [hno h]

/-- The values `iv.bin`, `iv.bin:iv.out` and `a:b:c` are split as `iv.bin` with
no output, `iv.bin` and `iv.out`, `a` and `b:c`. -/
theorem parse_iv_split_witness :
    ((parse_iv ctx "iv.bin").iv_in = some "iv.bin" ∧ (parse_iv ctx "iv.bin").iv_out = none) ∧
    ((parse_iv ctx "iv.bin:iv.out").iv_in = some "iv.bin" ∧
      (parse_iv ctx "iv.bin:iv.out").iv_out = some "iv.out") ∧
    ((parse_iv ctx "a:b:c").iv_in = some "a" ∧ (parse_iv ctx "a:b:c").iv_out = some "b:c") ∧
    (∃ i o, (parse_iv ctx "a:").iv_in = some i ∧ (parse_iv ctx "a:").iv_out = some o ∧
      i ++ ":" ++ o = "a:") :=
  ⟨⟨((parse_iv_split ctx "iv.bin").1 (by decide)).1,
    ((parse_iv_split ctx "iv.bin").1 (by decide)).2.2 rfl⟩,
   ⟨by decide, by decide⟩, ⟨by decide, by decide⟩,
   (((parse_iv_split ctx "a:").2.1 (by decide)).elim
     (fun i h => h.elim (fun o h => ⟨i, o, h.1, h.2.1, h.2.2.2.1⟩)))⟩

end EncryptDecrypt
